import Mathlib

set_option autoImplicit false

/-!
Verification of the synchronization core of `src/main.py` (OptSigns support
article scraper with OpenAI upload and vector-store attachment tracking).

The metadata store `articles_metadata.json` is a JSON object keyed by the
article id (a decimal string); each value is a record (a Python dict).  We
embed it as an association list `Store := List (String × Rec)`; Python dicts
have unique keys, so theorems that need it carry a `keysNodup` hypothesis.

A record field that may be missing from the dict is modelled with `Option`.
For the three vector-store fields the code distinguishes a missing key from a
key that is present with value `null` (`ensure_metadata_compatibility` tests
`"field" not in article_data`), so those three fields are modelled with
`Option (Option String)`: `none` = key absent, `some none` = key present with
`null`, `some (some s)` = key present with a string.

Python method-resolution facts that the embedding relies on (each noted again
at its use site):
* `class Scraper` defines `load_articles_metadata` twice (lines 129 and 407)
  and `save_articles_metadata` twice (lines 159 and 420); Python binds the
  later definition, so the effective `Scraper.load_articles_metadata` is the
  line-407 version, which does NOT call `ensure_metadata_compatibility`.
* `class OpenAIUploader` (no base class) does not define
  `upload_article_by_id` or `get_articles_for_upload`; those methods live on
  `Scraper`.  An access `self.upload_article_by_id` inside an
  `OpenAIUploader` method raises `AttributeError` at run time.

External collaborators (HTTP fetch, the OpenAI file and vector-store
services, the local filesystem) are modelled on their fault-free path: the
service calls the code makes are recorded in the result (upload calls,
attach calls, detach calls) and are assumed to succeed; run-time clock
values are passed in as explicit `now` arguments.
-/

/-- Python truthiness of an optional string value: `None` and `""` are falsy,
every other string is truthy. -/
def truthy : Option String → Bool
  | none => false
  | some s => !s.isEmpty

/-- Value returned by Python `dict.get(key)` (default `None`) for a field
modelled as `Option (Option String)`. -/
def jget : Option (Option String) → Option String
  | none => none
  | some v => v

/-- One record of `articles_metadata.json`.  Field names follow the JSON keys
written by `src/main.py`; `none` means the key is absent from the dict. -/
structure Rec where
  id : Nat := 0
  title : String := ""
  section_id : Nat := 0
  html_url : Option String := none
  created_at : Option String := none
  updated_at : Option String := none
  edited_at : Option String := none
  markdown_file : Option String := none
  last_scraped : Option String := none
  openai_upload_status : Option String := none
  skip_vector_store : Bool := false
  openai_file_id : Option String := none
  last_upload_attempt : Option String := none
  last_uploaded_updated_at : Option String := none
  upload_error : Option String := none
  vector_store_attachment_status : Option (Option String) := none
  vector_store_attached_at : Option (Option String) := none
  vector_store_id : Option (Option String) := none
  deriving DecidableEq

/-- The metadata store: article-id string to record, in JSON object order. -/
abbrev Store := List (String × Rec)

/-- Lookup of `metadata[aid]` / `metadata.get(aid)`. -/
def lookupRec : Store → String → Option Rec
  | [], _ => none
  | (k, r) :: t, aid => if k = aid then some r else lookupRec t aid

/-- Pointwise mutation `metadata[aid][...] = ...` of the record under a key. -/
def updateRec : Store → String → (Rec → Rec) → Store
  | [], _, _ => []
  | (k, r) :: t, aid, f =>
    if k = aid then (k, f r) :: updateRec t aid f
    else (k, r) :: updateRec t aid f

/-- Assignment `metadata[aid] = rec`: replaces the value of an existing key in
place, otherwise appends the new key at the end (Python dict semantics). -/
def insertRec : Store → String → Rec → Store
  | [], aid, r => [(aid, r)]
  | (k, r0) :: t, aid, r =>
    if k = aid then (k, r) :: t else (k, r0) :: insertRec t aid r

/-- The keys of the store. -/
def storeKeys (s : Store) : List String := s.map Prod.fst

/-- Well-formedness of a JSON object: its keys are distinct. -/
def keysNodup (s : Store) : Prop := (storeKeys s).Nodup

/-- The compatibility upgrade `ensure_metadata_compatibility` applies to one
record (src/main.py lines 147-157 and 1393-1403, identical bodies): each of
the three vector-store fields is given a default when its KEY IS ABSENT
(`"..." not in article_data`); a key present with `null` is left alone. -/
def compatRec (r : Rec) : Rec :=
  { r with
    vector_store_attachment_status :=
      match r.vector_store_attachment_status with
      | none => some (some "pending")
      | v => v,
    vector_store_attached_at :=
      match r.vector_store_attached_at with
      | none => some none
      | v => v,
    vector_store_id :=
      match r.vector_store_id with
      | none => some none
      | v => v }

/-- `ensure_metadata_compatibility` over the whole store. -/
def storeCompat (s : Store) : Store := s.map (fun p => (p.1, compatRec p.2))

/-- State of the store file on disk, as seen by the load routines. -/
inductive DiskFile where
  | missing
  | corrupt
  | ok (s : Store)

/-- Effective `Scraper.load_articles_metadata` (src/main.py lines 407-418).
The class defines the method twice; Python binds this later definition, which
returns the parsed JSON directly, WITHOUT the compatibility pass that the
shadowed line-129 definition would have applied.  A missing file yields `{}`;
a file that fails to parse is caught, logged and yields `{}`. -/
def scraperLoadDisk : DiskFile → Store
  | .missing => []
  | .corrupt => []
  | .ok s => s

/-- `OpenAIUploader.load_articles_metadata` (src/main.py lines 718-731): same
missing/corrupt handling, but a successfully parsed store goes through
`ensure_metadata_compatibility`. -/
def uploaderLoadDisk : DiskFile → Store
  | .missing => []
  | .corrupt => []
  | .ok s => storeCompat s

/-- One fetched article as assembled by `get_articles_from_section`
(src/main.py lines 259-300). -/
structure Article where
  id : Nat := 0
  title : String := ""
  body : String := ""
  html_url : Option String := none
  section_id : Nat := 0
  edited_at : Option String := none
  created_at : Option String := none
  updated_at : Option String := none
  deriving DecidableEq

/-- The record `save_article_as_markdown` stores after (re)writing the
artifact (src/main.py lines 229-243).  The dict literal is built from
scratch: it contains NO `openai_file_id`, `last_upload_attempt`,
`last_uploaded_updated_at`, `upload_error` or `vector_store_id` key, and it
resets `openai_upload_status`, `skip_vector_store`,
`vector_store_attachment_status` and `vector_store_attached_at` to their
pending defaults. -/
def freshRec (a : Article) (now : String) : Rec :=
  { id := a.id
    title := a.title
    section_id := a.section_id
    html_url := a.html_url
    created_at := a.created_at
    updated_at := a.updated_at
    edited_at := a.edited_at
    markdown_file := some (toString a.id ++ ".md")
    last_scraped := some now
    openai_upload_status := some "pending"
    skip_vector_store := false
    vector_store_attachment_status := some (some "pending")
    vector_store_attached_at := some none }

/-- The `edited_at` value the staleness check reads for a key:
`all_metadata.get(article_id, {}).get("edited_at")`. -/
def storedEdited (s : Store) (aid : String) : Option String :=
  (lookupRec s aid).bind (fun r => r.edited_at)

/-- `Scraper.save_article_as_markdown` (src/main.py lines 175-251) on the
fault-free filesystem path.  It compares the stored `edited_at` with the
fetched one (`None` when the record or the key is absent); when they are
EQUAL it returns early with no file write and no metadata change, otherwise
it rewrites the artifact and stores `freshRec` under the id.  Returns the
updated persisted store and whether the artifact was written. -/
def saveArticleAsMarkdown (s : Store) (a : Article) (now : String) :
    Store × Bool :=
  let aid := toString a.id
  if storedEdited s aid = a.edited_at then (s, false)
  else (insertRec s aid (freshRec a now), true)

/-- The record mutation performed by `Scraper.update_upload_status`
(src/main.py lines 447-459): set the status and attempt stamp, record the
file id when the argument is truthy, and set or clear `upload_error`.  Note
that this version does NOT write `last_uploaded_updated_at`. -/
def scraperStatusTransform (status : String) (fid err : Option String)
    (now : String) (r : Rec) : Rec :=
  let r1 := { r with openai_upload_status := some status
                     last_upload_attempt := some now }
  let r2 := if truthy fid then { r1 with openai_file_id := fid } else r1
  if truthy err then { r2 with upload_error := err }
  else { r2 with upload_error := none }

/-- `Scraper.update_upload_status` (src/main.py lines 433-461).  Loads via the
effective (no-compat) Scraper load, mutates only when the id is a key, and
saves; otherwise neither mutates nor saves. -/
def scraperUpdateUploadStatus (s : Store) (aid status : String)
    (fid err : Option String) (now : String) : Store :=
  if (lookupRec s aid).isSome then
    updateRec s aid (scraperStatusTransform status fid err now)
  else s

/-- The record mutation performed by `OpenAIUploader.update_upload_status`
(src/main.py lines 967-985): like the Scraper version, but inside the
`if openai_file_id:` branch it also stamps `last_uploaded_updated_at` with
the current `updated_at` of the record, but only when that value is truthy. -/
def uploaderStatusTransform (status : String) (fid err : Option String)
    (now : String) (r : Rec) : Rec :=
  let r1 := { r with openai_upload_status := some status
                     last_upload_attempt := some now }
  let r2 :=
    if truthy fid then
      let r3 := { r1 with openai_file_id := fid }
      if truthy r3.updated_at then
        { r3 with last_uploaded_updated_at := r3.updated_at }
      else r3
    else r1
  if truthy err then { r2 with upload_error := err }
  else { r2 with upload_error := none }

/-- `OpenAIUploader.update_upload_status` (src/main.py lines 953-987).  Loads
WITH the compatibility pass; when the id is a key the whole compat-upgraded
store (with the one record mutated) is saved, and when the id is not a key
nothing is modified and nothing is saved, so the store file is unchanged. -/
def uploaderUpdateUploadStatus (s : Store) (aid status : String)
    (fid err : Option String) (now : String) : Store :=
  let m := storeCompat s
  if (lookupRec m aid).isSome then
    updateRec m aid (uploaderStatusTransform status fid err now)
  else s

/-- The shared selection ladder of `upload_markdown_files_batch`
(src/main.py lines 861-883), evaluated on `metadata.get(article_id, {})`:
returns the reason string when the article should be uploaded.  The same
ladder appears (behind a `force_reupload` guard) in
`get_articles_for_upload` lines 475-500. -/
def batchUploadDecision (o : Option Rec) : Option String :=
  let status := (o.bind (fun r => r.openai_upload_status)).getD "pending"
  let upd := o.bind (fun r => r.updated_at)
  let last := o.bind (fun r => r.last_uploaded_updated_at)
  if status = "pending" then some "never_uploaded"
  else if status = "failed" then some "previous_upload_failed"
  else if status = "uploaded" then
    if truthy upd && truthy last then
      if upd ≠ last then some "content_updated" else none
    else if truthy upd && !truthy last then some "metadata_migration"
    else none
  else none

/-- Per-record decision of `Scraper.get_articles_for_upload`
(src/main.py lines 479-500): `force_reupload` first, then the shared
ladder. -/
def uploadDecision (r : Rec) (force : Bool) : Option String :=
  if force then some "force_reupload" else batchUploadDecision (some r)

/-- `Scraper.get_articles_for_upload` (src/main.py lines 463-518), reduced to
the `(article_id, upload_reason)` pairs it returns.  Records with
`skip_vector_store` are skipped up front (line 472), and a selected article
is kept only when its markdown file exists on disk (line 504). -/
def getArticlesForUpload (s : Store) (fileExists : String → Bool)
    (force : Bool) : List (String × String) :=
  s.filterMap (fun p =>
    if p.2.skip_vector_store then none
    else
      match uploadDecision p.2 force with
      | some reason => if fileExists p.1 then some (p.1, reason) else none
      | none => none)

/-- Eligibility test of the attach stage (src/main.py lines 1183-1185):
`article_data.get("openai_upload_status") == "uploaded"` (note: `.get` with
NO default here) and a truthy `openai_file_id`. -/
def attachEligible (r : Rec) : Bool :=
  r.openai_upload_status = some "uploaded" && truthy r.openai_file_id

/-- Staleness test of the attach stage (src/main.py lines 1192-1196): both
watermarks truthy and different. -/
def needsFileUpdate (r : Rec) : Bool :=
  truthy r.updated_at && truthy r.last_uploaded_updated_at &&
    r.updated_at ≠ r.last_uploaded_updated_at

/-- Classification a record receives in the scan of
`attach_uploaded_files_to_vector_store` (src/main.py lines 1178-1219). -/
inductive AttachClass where
  | skipped
  | ineligible
  | needsUpdate
  | alreadyAttached
  | toAttach
  deriving DecidableEq

/-- The classification itself, mirroring the `if`/`elif` chain of the scan. -/
def classifyAttach (r : Rec) : AttachClass :=
  if r.skip_vector_store then .skipped
  else if attachEligible r then
    if needsFileUpdate r then .needsUpdate
    else if jget r.vector_store_attachment_status = some "attached" then
      .alreadyAttached
    else .toAttach
  else .ineligible

/-- Method names defined in `class OpenAIUploader` (src/main.py lines
708-1484), in source order.  The class has no base class, so an attribute
access `self.m` for any `m` outside this list raises `AttributeError`. -/
def openAIUploaderMethods : List String :=
  ["__init__", "load_articles_metadata", "save_articles_metadata",
   "get_markdown_file_paths", "upload_files_batch",
   "upload_markdown_files_batch", "upload_single_file_from_articles",
   "get_uploaded_files_info", "update_upload_status",
   "upload_articles_by_ids_batch", "create_and_check_vector_store",
   "attach_files_to_vector_store", "attach_uploaded_files_to_vector_store",
   "ensure_metadata_compatibility", "get_attachment_status_summary",
   "print_attachment_status_report"]

/-- Metadata update for a successful attachment (src/main.py lines
1316-1319 and 1139-1142). -/
def setAttachedFields (storeId now : String) (r : Rec) : Rec :=
  { r with
    vector_store_attachment_status := some (some "attached")
    vector_store_attached_at := some (some now)
    vector_store_id := some (some storeId) }

/-- Result of one `attach_uploaded_files_to_vector_store` run: the persisted
store, the detach and attach service calls made (article id paired with the
file id sent), and the run counters. -/
structure AttachResult where
  store : Store
  detachCalls : List (String × String)
  attachCalls : List (String × String)
  filesUpdated : Nat
  filesUpdateFailed : Nat
  addedCount : Nat
  alreadyAttachedCount : Nat
  saved : Bool
  deriving DecidableEq

/-- In-memory mutation loop over `uploaded_files` (src/main.py lines
1305-1348) on the fault-free service path: each file is attached and its
record is stamped attached. -/
def applyAttaches (storeId now : String) : List (String × Rec) → Store → Store
  | [], m => m
  | p :: rest, m =>
    applyAttaches storeId now rest
      (updateRec m p.1 (setAttachedFields storeId now))

/-- `OpenAIUploader.attach_uploaded_files_to_vector_store`
(src/main.py lines 1159-1391) with a vector store selected, on the
fault-free service path.

The store is loaded through the compat pass (line 1168); an empty store
returns immediately.  The scan splits the non-skipped records into
`files_needing_update` (uploaded, file id recorded, watermarks truthy and
different), `already_attached` and `uploaded_files` (to attach).

Supersede loop (lines 1228-1283): for each item needing update the code
first detaches the old file id when the record is attached (line 1238),
then calls `self.upload_article_by_id(...)` (line 1246).  `OpenAIUploader`
defines no such method (see `openAIUploaderMethods`; the method lives on
`Scraper`), so that call raises `AttributeError`, which the per-item
`except Exception` handler at line 1281 catches: the item is counted in
`files_update_failed_count` and its record is left unmutated.
`files_updated_count` is only incremented after a successful re-upload and
re-attach, so it is always 0.

If both worklists are empty the function returns BEFORE saving (lines
1285-1290), leaving the store file untouched; otherwise each `uploaded_files`
item is attached (the httpx response has no `status` attribute, so the
`added_count` branch is taken) and the mutated metadata is saved
(line 1351). -/
def attachUploadedFilesToVectorStore (s : Store) (storeId now : String) :
    AttachResult :=
  let metadata := storeCompat s
  if metadata.isEmpty then
    { store := s, detachCalls := [], attachCalls := [], filesUpdated := 0
      filesUpdateFailed := 0, addedCount := 0, alreadyAttachedCount := 0
      saved := false }
  else
    let needing := metadata.filter
      (fun p => classifyAttach p.2 = AttachClass.needsUpdate)
    let toAttach := metadata.filter
      (fun p => classifyAttach p.2 = AttachClass.toAttach)
    let alreadyCount := (metadata.filter
      (fun p => classifyAttach p.2 = AttachClass.alreadyAttached)).length
    let detaches := needing.filterMap (fun p =>
      if jget p.2.vector_store_attachment_status = some "attached" then
        some (p.1, p.2.openai_file_id.getD "")
      else none)
    if toAttach.isEmpty && needing.isEmpty then
      { store := s, detachCalls := [], attachCalls := [], filesUpdated := 0
        filesUpdateFailed := 0, addedCount := 0
        alreadyAttachedCount := alreadyCount, saved := false }
    else
      { store := applyAttaches storeId now toAttach metadata
        detachCalls := detaches
        attachCalls := toAttach.map (fun p => (p.1, p.2.openai_file_id.getD ""))
        filesUpdated := 0
        filesUpdateFailed := needing.length
        addedCount := toAttach.length
        alreadyAttachedCount := alreadyCount
        saved := true }

/-- `OpenAIUploader.attach_files_to_vector_store` (src/main.py lines
1121-1157) with a vector store selected: attach one file id, and when an
article id is supplied and present in the (compat-loaded) store, stamp its
record attached on service success and failed on service failure; the store
file is saved only in those two cases. -/
def attachFilesToVectorStore (s : Store) (storeId now : String)
    (_fid : String) (aid : Option String) (succeeds : Bool) : Store :=
  match aid with
  | none => s
  | some a =>
    let m := storeCompat s
    if (lookupRec m a).isSome then
      if succeeds then updateRec m a (setAttachedFields storeId now)
      else updateRec m a (fun r =>
        { r with vector_store_attachment_status := some (some "failed") })
    else s

/-- Local pipeline state: the persisted store plus the set of markdown
artifact files on disk (as article-id strings; `{id}.md` is the filename). -/
structure PipelineState where
  store : Store
  files : List String
  deriving DecidableEq

/-- Observable effect counters of one pipeline run. -/
structure RunStats where
  artifactWrites : Nat
  uploadCalls : Nat
  attachCalls : Nat
  detachCalls : Nat
  deriving DecidableEq

/-- Writing artifact `{id}.md` adds it to the directory if not present. -/
def insertFile (files : List String) (f : String) : List String :=
  if f ∈ files then files else files ++ [f]

/-- The fetch stage: `save_article_as_markdown` applied to each fetched
article in input order (src/main.py lines 367-379), counting artifact
writes. -/
def fetchStage (st : PipelineState) (now : String) :
    List Article → PipelineState × Nat
  | [] => (st, 0)
  | a :: rest =>
    let w := saveArticleAsMarkdown st.store a now
    let st' : PipelineState :=
      if w.2 then ⟨w.1, insertFile st.files (toString a.id)⟩
      else ⟨w.1, st.files⟩
    let res := fetchStage st' now rest
    (res.1, (if w.2 then 1 else 0) + res.2)

/-- `OpenAIUploader.upload_files_batch` (src/main.py lines 762-838) on the
fault-free path: each file is sent to the service (one upload call each) and
`update_upload_status(article_id, "uploaded", response.id)` is recorded;
`fidOf` gives the opaque file id the service returns for each file. -/
def uploadFilesBatch (s : Store) (fidOf : String → String) (now : String) :
    List String → Store × Nat
  | [] => (s, 0)
  | f :: rest =>
    let s1 := uploaderUpdateUploadStatus s f "uploaded" (some (fidOf f)) none now
    let res := uploadFilesBatch s1 fidOf now rest
    (res.1, res.2 + 1)

/-- `OpenAIUploader.upload_markdown_files_batch` (src/main.py lines 840-905):
globs the markdown files, loads the store through the compat pass, selects
the files whose ladder decision fires (note: no `skip_vector_store` filter
and no `force_reupload` on this path), and batch-uploads the selection.
Returns the persisted store and the number of upload service calls. -/
def uploadMarkdownFilesBatch (s : Store) (files : List String)
    (fidOf : String → String) (now : String) : Store × Nat :=
  if files.isEmpty then (s, 0)
  else
    let metadata := storeCompat s
    let sel := files.filter
      (fun f => (batchUploadDecision (lookupRec metadata f)).isSome)
    if sel.isEmpty then (s, 0)
    else uploadFilesBatch s fidOf now sel

/-- One full pipeline run as wired in `main()` (src/main.py lines
1487-1514): fetch, then `upload_markdown_files_batch`, then
`attach_uploaded_files_to_vector_store`. -/
def fullRun (st : PipelineState) (articles : List Article)
    (fidOf : String → String) (now storeId : String) :
    PipelineState × RunStats :=
  let fres := fetchStage st now articles
  let ures := uploadMarkdownFilesBatch fres.1.store fres.1.files fidOf now
  let ares := attachUploadedFilesToVectorStore ures.1 storeId now
  (⟨ares.store, fres.1.files⟩,
   { artifactWrites := fres.2
     uploadCalls := ures.2
     attachCalls := ares.attachCalls.length
     detachCalls := ares.detachCalls.length })

/-- The upload-stage decision table exactly as claim C4 words it, clause by
clause: `force_reupload` selects; status `pending` selects
(`never_uploaded`); status `failed` selects (`previous_upload_failed`);
status `uploaded` with `updated_at` present and unequal to
`last_uploaded_updated_at` selects (`content_updated`); status `uploaded`
with `updated_at` present but no `last_uploaded_updated_at` recorded selects
(`metadata_migration`); otherwise no selection.  "Present" is Python
truthiness, and an absent status reads as `pending`. -/
def specUploadDecision (r : Rec) (force : Bool) : Option String :=
  if force then some "force_reupload"
  else if r.openai_upload_status.getD "pending" = "pending" then
    some "never_uploaded"
  else if r.openai_upload_status.getD "pending" = "failed" then
    some "previous_upload_failed"
  else if r.openai_upload_status.getD "pending" = "uploaded" &&
      truthy r.updated_at && truthy r.last_uploaded_updated_at &&
      r.updated_at ≠ r.last_uploaded_updated_at then
    some "content_updated"
  else if r.openai_upload_status.getD "pending" = "uploaded" &&
      truthy r.updated_at && !truthy r.last_uploaded_updated_at then
    some "metadata_migration"
  else none

/-- The invariant claim C7 states: a record can be attached only when its
upload status is `uploaded` (status read the way the code reads it,
defaulting to `pending`). -/
def recInv (r : Rec) : Prop :=
  jget r.vector_store_attachment_status = some "attached" →
    r.openai_upload_status.getD "pending" = "uploaded"

instance (r : Rec) : Decidable (recInv r) := by
  unfold recInv; infer_instance

/-- The whole-store version of the C7 invariant. -/
def storeInv (s : Store) : Prop := ∀ p ∈ s, recInv p.2

/-- Pipeline-state well-formedness used by the idempotence theorem: every
artifact file on disk has a metadata record. -/
def FilesHaveRecords (st : PipelineState) : Prop :=
  ∀ f ∈ st.files, (lookupRec st.store f).isSome = true

/-- Pipeline-state well-formedness used by the idempotence theorem: every
record the attach stage would classify as needing a supersede has its
artifact on disk, so the upload stage can refresh its watermark first. -/
def StaleHaveFiles (st : PipelineState) : Prop :=
  ∀ p ∈ st.store, (attachEligible p.2 && needsFileUpdate p.2) = true →
    p.1 ∈ st.files

/-- Shape of a record after any number of upload-stage mutations of its
entry: unchanged, compat-upgraded, or freshly stamped (in which case its
watermarks agree, so it does not need a supersede). -/
def UploadShape (r rOut : Rec) : Prop :=
  rOut = r ∨ rOut = compatRec r ∨ needsFileUpdate rOut = false

/-- No record of the (compat-loaded) store lands in either attach-stage
worklist: the attach run makes no service call and does not save. -/
def AttachQuiet (s : Store) : Prop :=
  ∀ p ∈ storeCompat s, classifyAttach p.2 ≠ AttachClass.needsUpdate ∧
    classifyAttach p.2 ≠ AttachClass.toAttach

/-- A pipeline state on which a whole run performs no artifact write, no
upload call, and no attach or detach call. -/
def QuietState (st : PipelineState) (A : List Article) : Prop :=
  (∀ a ∈ A, storedEdited st.store (toString a.id) = a.edited_at) ∧
  (∀ f ∈ st.files, batchUploadDecision (lookupRec st.store f) = none) ∧
  AttachQuiet st.store

/-- The `last_uploaded_updated_at` watermark of an optional record. -/
def lastOf (o : Option Rec) : Option String :=
  o.bind (fun r => r.last_uploaded_updated_at)

/-- The `updated_at` field of an optional record. -/
def updOf (o : Option Rec) : Option String :=
  o.bind (fun r => r.updated_at)

/-- Sample record for C1: uploaded, attached, and stale (its `updated_at`
moved past the recorded `last_uploaded_updated_at`). -/
def c1rec : Rec :=
  { id := 7, title := "Doc", openai_upload_status := some "uploaded"
    openai_file_id := some "file-old"
    updated_at := some "2024-02-01"
    last_uploaded_updated_at := some "2024-01-01"
    vector_store_attachment_status := some (some "attached")
    vector_store_attached_at := some (some "t0")
    vector_store_id := some (some "vs1") }

/-- Sample existing record for C2: carries upload and attach state. -/
def c2rec : Rec :=
  { id := 7, title := "Doc", edited_at := some "2024-01-01"
    updated_at := some "2024-01-01"
    openai_upload_status := some "uploaded"
    openai_file_id := some "file-1"
    last_uploaded_updated_at := some "2024-01-01"
    skip_vector_store := true
    vector_store_attachment_status := some (some "attached")
    vector_store_attached_at := some (some "t0")
    vector_store_id := some (some "vs1") }

/-- Sample re-fetched article for C2: same id, changed `edited_at`. -/
def c2article : Article :=
  { id := 7, title := "Doc", section_id := 1
    edited_at := some "2024-02-01", updated_at := some "2024-02-02" }

/-- Sample record for C3: a previous failure with a stale watermark. -/
def c3rec : Rec :=
  { id := 7, title := "Doc", openai_upload_status := some "failed"
    openai_file_id := some "file-1"
    updated_at := some "2024-02-01"
    last_uploaded_updated_at := some "2024-01-01" }

/-- Sample record for C4: marked `skip_vector_store`. -/
def c4rec : Rec :=
  { id := 1, title := "Doc", openai_upload_status := some "pending"
    updated_at := some "2024-02-01", skip_vector_store := true }

/-- Sample first-seen article for C5 whose remote `edited_at` is null. -/
def c5articleNull : Article :=
  { id := 9, title := "Doc", section_id := 1, edited_at := none }

/-- Sample first-seen article for C5 with a non-null `edited_at`. -/
def c5articleNew : Article :=
  { id := 8, title := "Doc", section_id := 1, edited_at := some "2024-01-01" }

/-- Sample record for C6: a pending record whose artifact is on disk. -/
def c6rec : Rec :=
  { id := 7, title := "Doc", edited_at := some "2024-01-01"
    updated_at := some "2024-01-05"
    openai_upload_status := some "pending" }

/-- Sample remote article for C6, unchanged relative to `c6rec`. -/
def c6article : Article :=
  { id := 7, title := "Doc", section_id := 1
    edited_at := some "2024-01-01", updated_at := some "2024-01-05" }

/-- Sample pipeline state for C6. -/
def c6state : PipelineState := { store := [("7", c6rec)], files := ["7"] }

/-- Sample record for C7: uploaded and attached (invariant holds). -/
def c7rec : Rec :=
  { id := 7, title := "Doc", openai_upload_status := some "uploaded"
    openai_file_id := some "file-1"
    updated_at := some "2024-01-01"
    last_uploaded_updated_at := some "2024-01-01"
    vector_store_attachment_status := some (some "attached")
    vector_store_attached_at := some (some "t0")
    vector_store_id := some (some "vs1") }

/-- Sample record for C9: uploaded, stale watermark, but marked
`skip_vector_store`. -/
def c9rec : Rec :=
  { id := 9, title := "Doc", openai_upload_status := some "uploaded"
    openai_file_id := some "file-9"
    updated_at := some "2024-02-01"
    last_uploaded_updated_at := some "2024-01-01"
    skip_vector_store := true
    vector_store_attachment_status := some (some "attached")
    vector_store_attached_at := some (some "t0")
    vector_store_id := some (some "vs1") }

/-- Sample record for C10 living under a different key. -/
def c10rec : Rec :=
  { id := 1, title := "Doc", openai_upload_status := some "uploaded"
    openai_file_id := some "file-1" }

/-- Sample legacy record for C8: written before the attachment-tracking
fields existed, so all three vector-store keys are absent. -/
def c8rec : Rec :=
  { id := 7, title := "Doc", openai_upload_status := some "uploaded"
    openai_file_id := some "file-1" }

instance (s : Store) : Decidable (keysNodup s) := by
  unfold keysNodup; infer_instance

instance (st : PipelineState) : Decidable (FilesHaveRecords st) := by
  unfold FilesHaveRecords; infer_instance

instance (st : PipelineState) : Decidable (StaleHaveFiles st) := by
  unfold StaleHaveFiles; infer_instance

instance (s : Store) : Decidable (storeInv s) := by
  unfold storeInv; infer_instance

/-! ### Association-list lemmas -/

theorem lookupRec_updateRec_self (s : Store) (aid : String) (f : Rec → Rec) :
    lookupRec (updateRec s aid f) aid = (lookupRec s aid).map f := by
  induction s with
  | nil => rfl
  | cons p t ih =>
    obtain ⟨k, r⟩ := p
    by_cases h : k = aid
    · simp [updateRec, lookupRec, if_pos h]
    · simp [updateRec, lookupRec, if_neg h, ih]

theorem lookupRec_updateRec_ne (s : Store) (aid x : String) (f : Rec → Rec)
    (h : x ≠ aid) :
    lookupRec (updateRec s aid f) x = lookupRec s x := by
  induction s with
  | nil => rfl
  | cons p t ih =>
    obtain ⟨k, r⟩ := p
    by_cases hk : k = aid
    · have hkx : k ≠ x := by rw [hk]; exact Ne.symm h
      simp [updateRec, lookupRec, if_pos hk, if_neg hkx, ih]
    · by_cases hx : k = x
      · simp [updateRec, lookupRec, if_neg hk, if_pos hx]
      · simp [updateRec, lookupRec, if_neg hk, if_neg hx, ih]

theorem lookupRec_insertRec_self (s : Store) (aid : String) (r : Rec) :
    lookupRec (insertRec s aid r) aid = some r := by
  induction s with
  | nil => simp [insertRec, lookupRec]
  | cons p t ih =>
    obtain ⟨k, r0⟩ := p
    by_cases h : k = aid
    · simp [insertRec, if_pos h, lookupRec]
    · simp [insertRec, if_neg h, lookupRec, ih]

theorem lookupRec_insertRec_ne (s : Store) (aid x : String) (r : Rec)
    (h : x ≠ aid) :
    lookupRec (insertRec s aid r) x = lookupRec s x := by
  induction s with
  | nil => simp [insertRec, lookupRec, if_neg (Ne.symm h)]
  | cons p t ih =>
    obtain ⟨k, r0⟩ := p
    by_cases hk : k = aid
    · have hkx : k ≠ x := by rw [hk]; exact Ne.symm h
      simp [insertRec, if_pos hk, lookupRec, if_neg hkx]
    · by_cases hx : k = x
      · simp [insertRec, if_neg hk, lookupRec, if_pos hx]
      · simp [insertRec, if_neg hk, lookupRec, if_neg hx, ih]

theorem lookupRec_storeCompat (s : Store) (x : String) :
    lookupRec (storeCompat s) x = (lookupRec s x).map compatRec := by
  induction s with
  | nil => rfl
  | cons p t ih =>
    obtain ⟨k, r⟩ := p
    by_cases h : k = x
    · simp [storeCompat, lookupRec, if_pos h]
    · simpa [storeCompat, lookupRec, if_neg h] using ih

theorem storeKeys_updateRec (s : Store) (aid : String) (f : Rec → Rec) :
    storeKeys (updateRec s aid f) = storeKeys s := by
  induction s with
  | nil => rfl
  | cons p t ih =>
    obtain ⟨k, r⟩ := p
    by_cases h : k = aid
    · simpa [updateRec, storeKeys, if_pos h] using ih
    · simpa [updateRec, storeKeys, if_neg h] using ih

theorem storeKeys_storeCompat (s : Store) :
    storeKeys (storeCompat s) = storeKeys s := by
  induction s with
  | nil => rfl
  | cons p t ih => simp [storeCompat, storeKeys, ih]

theorem isSome_lookupRec_iff (s : Store) (x : String) :
    (lookupRec s x).isSome = true ↔ x ∈ storeKeys s := by
  induction s with
  | nil => simp [lookupRec, storeKeys]
  | cons p t ih =>
    obtain ⟨k, r⟩ := p
    by_cases h : k = x
    · simp [lookupRec, if_pos h, storeKeys, h]
    · simp [lookupRec, if_neg h, storeKeys, ih]
      exact fun hx => (h hx.symm).elim

theorem lookupRec_eq_of_mem (s : Store) (p : String × Rec)
    (hn : keysNodup s) (hp : p ∈ s) : lookupRec s p.1 = some p.2 := by
  induction s with
  | nil => simp at hp
  | cons q t ih =>
    obtain ⟨k, r⟩ := q
    rcases List.mem_cons.mp hp with hq | hq
    · rw [hq]; simp [lookupRec]
    · have hk : k ≠ p.1 := by
        intro h
        subst h
        exact (List.nodup_cons.mp hn).1 (by
          simpa [storeKeys] using List.mem_map_of_mem Prod.fst hq)
      simp [lookupRec, if_neg hk]
      exact ih (List.nodup_cons.mp hn).2 hq

theorem mem_of_lookupRec_eq (s : Store) (x : String) (r : Rec)
    (h : lookupRec s x = some r) : (x, r) ∈ s := by
  induction s with
  | nil => simp [lookupRec] at h
  | cons q t ih =>
    obtain ⟨k, r0⟩ := q
    by_cases hk : k = x
    · subst hk
      simp [lookupRec] at h
      subst h
      exact List.mem_cons_self _ _
    · simp [lookupRec, if_neg hk] at h
      exact List.mem_cons_of_mem _ (ih h)

/-! ### Field-level facts about the record transformers -/

theorem compatRec_upload_status (r : Rec) :
    (compatRec r).openai_upload_status = r.openai_upload_status := rfl

theorem compatRec_updated_at (r : Rec) :
    (compatRec r).updated_at = r.updated_at := rfl

theorem compatRec_last_uploaded (r : Rec) :
    (compatRec r).last_uploaded_updated_at = r.last_uploaded_updated_at := rfl

theorem compatRec_edited_at (r : Rec) :
    (compatRec r).edited_at = r.edited_at := rfl

theorem compatRec_skip (r : Rec) :
    (compatRec r).skip_vector_store = r.skip_vector_store := rfl

theorem compatRec_file_id (r : Rec) :
    (compatRec r).openai_file_id = r.openai_file_id := rfl

theorem compatRec_compatRec (r : Rec) :
    compatRec (compatRec r) = compatRec r := by
  unfold compatRec
  rcases r.vector_store_attachment_status with _ | v <;>
    rcases r.vector_store_attached_at with _ | w <;>
    rcases r.vector_store_id with _ | u <;> rfl

theorem setAttachedFields_upload_status (sid now : String) (r : Rec) :
    (setAttachedFields sid now r).openai_upload_status =
      r.openai_upload_status := rfl

theorem setAttachedFields_updated_at (sid now : String) (r : Rec) :
    (setAttachedFields sid now r).updated_at = r.updated_at := rfl

theorem setAttachedFields_last_uploaded (sid now : String) (r : Rec) :
    (setAttachedFields sid now r).last_uploaded_updated_at =
      r.last_uploaded_updated_at := rfl

theorem setAttachedFields_edited_at (sid now : String) (r : Rec) :
    (setAttachedFields sid now r).edited_at = r.edited_at := rfl

theorem setAttachedFields_skip (sid now : String) (r : Rec) :
    (setAttachedFields sid now r).skip_vector_store =
      r.skip_vector_store := rfl

theorem setAttachedFields_file_id (sid now : String) (r : Rec) :
    (setAttachedFields sid now r).openai_file_id = r.openai_file_id := rfl

theorem compatRec_setAttachedFields (sid now : String) (r : Rec) :
    compatRec (setAttachedFields sid now r) = setAttachedFields sid now r := by
  rfl

theorem setAttachedFields_idem (sid now : String) (r : Rec) :
    setAttachedFields sid now (setAttachedFields sid now r) =
      setAttachedFields sid now r := rfl

/-- The shared upload ladder only reads `openai_upload_status`, `updated_at`
and `last_uploaded_updated_at`, all untouched by the compat pass. -/
theorem batchUploadDecision_compat (o : Option Rec) :
    batchUploadDecision (o.map compatRec) = batchUploadDecision o := by
  cases o <;> rfl

/-- Attach eligibility is invariant under the compat pass. -/
theorem attachEligible_compat (r : Rec) :
    attachEligible (compatRec r) = attachEligible r := rfl

/-- The attach staleness test is invariant under the compat pass. -/
theorem needsFileUpdate_compat (r : Rec) :
    needsFileUpdate (compatRec r) = needsFileUpdate r := rfl

theorem batchUploadDecision_setAttached (sid now : String) (r : Rec) :
    batchUploadDecision (some (setAttachedFields sid now r)) =
      batchUploadDecision (some r) := rfl

theorem scraperTransform_last (status : String) (fid err : Option String)
    (now : String) (r : Rec) :
    (scraperStatusTransform status fid err now r).last_uploaded_updated_at =
      r.last_uploaded_updated_at := by
  simp only [scraperStatusTransform]
  split_ifs <;> rfl

theorem uploaderTransform_status (status : String) (fid err : Option String)
    (now : String) (r : Rec) :
    (uploaderStatusTransform status fid err now r).openai_upload_status =
      some status := by
  simp only [uploaderStatusTransform]
  split_ifs <;> rfl

theorem uploaderTransform_updated (status : String) (fid err : Option String)
    (now : String) (r : Rec) :
    (uploaderStatusTransform status fid err now r).updated_at =
      r.updated_at := by
  simp only [uploaderStatusTransform]
  split_ifs <;> rfl

theorem uploaderTransform_edited (status : String) (fid err : Option String)
    (now : String) (r : Rec) :
    (uploaderStatusTransform status fid err now r).edited_at =
      r.edited_at := by
  simp only [uploaderStatusTransform]
  split_ifs <;> rfl

theorem uploaderTransform_skip (status : String) (fid err : Option String)
    (now : String) (r : Rec) :
    (uploaderStatusTransform status fid err now r).skip_vector_store =
      r.skip_vector_store := by
  simp only [uploaderStatusTransform]
  split_ifs <;> rfl

theorem uploaderTransform_last (status : String) (fid err : Option String)
    (now : String) (r : Rec) :
    (uploaderStatusTransform status fid err now r).last_uploaded_updated_at =
      if truthy fid && truthy r.updated_at then r.updated_at
      else r.last_uploaded_updated_at := by
  simp only [uploaderStatusTransform]
  by_cases hf : truthy fid <;> by_cases hu : truthy r.updated_at <;>
    by_cases he : truthy err <;> simp [hf, hu, he]

theorem uploaderTransform_vs_status (status : String) (fid err : Option String)
    (now : String) (r : Rec) :
    (uploaderStatusTransform status fid err now r).vector_store_attachment_status =
      r.vector_store_attachment_status := by
  simp only [uploaderStatusTransform]
  split_ifs <;> rfl

theorem scraperTransform_vs_status (status : String) (fid err : Option String)
    (now : String) (r : Rec) :
    (scraperStatusTransform status fid err now r).vector_store_attachment_status =
      r.vector_store_attachment_status := by
  simp only [scraperStatusTransform]
  split_ifs <;> rfl

theorem needsFileUpdate_uploaderTransform (status : String)
    (fid err : Option String) (now : String) (r : Rec)
    (hf : truthy fid = true) :
    needsFileUpdate (uploaderStatusTransform status fid err now r) = false := by
  unfold needsFileUpdate
  rw [uploaderTransform_updated, uploaderTransform_last, hf]
  by_cases hu : truthy r.updated_at
  · simp [hu]
  · simp [Bool.of_not_eq_true hu]

theorem decision_uploaderTransform (fid err : Option String) (now : String)
    (r : Rec) (hf : truthy fid = true) :
    batchUploadDecision (some (uploaderStatusTransform "uploaded" fid err now r)) =
      none := by
  have hs := uploaderTransform_status "uploaded" fid err now r
  have hup := uploaderTransform_updated "uploaded" fid err now r
  have hl := uploaderTransform_last "uploaded" fid err now r
  rw [hf] at hl
  by_cases hu : truthy r.updated_at <;>
    simp [batchUploadDecision, hs, hup, hl, hu]

theorem scraperUpdate_lookup_self (s : Store) (aid status : String)
    (fid err : Option String) (now : String) :
    lookupRec (scraperUpdateUploadStatus s aid status fid err now) aid =
      (lookupRec s aid).map (scraperStatusTransform status fid err now) := by
  unfold scraperUpdateUploadStatus
  by_cases h : (lookupRec s aid).isSome
  · rw [if_pos h, lookupRec_updateRec_self]
  · rw [if_neg h, Option.not_isSome_iff_eq_none.mp h]
    rfl

theorem scraperUpdate_lookup_other (s : Store) (aid status x : String)
    (fid err : Option String) (now : String) (h : x ≠ aid) :
    lookupRec (scraperUpdateUploadStatus s aid status fid err now) x =
      lookupRec s x := by
  unfold scraperUpdateUploadStatus
  by_cases hm : (lookupRec s aid).isSome
  · rw [if_pos hm, lookupRec_updateRec_ne _ _ _ _ h]
  · rw [if_neg hm]

theorem uploaderUpdate_lookup_self (s : Store) (aid status : String)
    (fid err : Option String) (now : String) :
    lookupRec (uploaderUpdateUploadStatus s aid status fid err now) aid =
      (lookupRec s aid).map
        (fun r => uploaderStatusTransform status fid err now (compatRec r)) := by
  unfold uploaderUpdateUploadStatus
  by_cases h : (lookupRec (storeCompat s) aid).isSome
  · rw [if_pos h, lookupRec_updateRec_self, lookupRec_storeCompat,
      Option.map_map]
    rfl
  · rw [if_neg h]
    have hnone : lookupRec s aid = none := by
      rw [lookupRec_storeCompat] at h
      cases hl : lookupRec s aid with
      | none => rfl
      | some r => rw [hl] at h; simp at h
    rw [hnone]
    rfl

theorem uploaderUpdate_lookup_other (s : Store) (aid status x : String)
    (fid err : Option String) (now : String) (h : x ≠ aid) :
    lookupRec (uploaderUpdateUploadStatus s aid status fid err now) x =
      lookupRec s x ∨
    lookupRec (uploaderUpdateUploadStatus s aid status fid err now) x =
      (lookupRec s x).map compatRec := by
  unfold uploaderUpdateUploadStatus
  by_cases hm : (lookupRec (storeCompat s) aid).isSome
  · right
    rw [if_pos hm, lookupRec_updateRec_ne _ _ _ _ h, lookupRec_storeCompat]
  · left
    rw [if_neg hm]

theorem mem_updateRec (s : Store) (aid : String) (f : Rec → Rec)
    (p : String × Rec) (hp : p ∈ updateRec s aid f) :
    ∃ q ∈ s, p.1 = q.1 ∧ (p.2 = q.2 ∨ p.2 = f q.2) := by
  induction s with
  | nil => simp [updateRec] at hp
  | cons q t ih =>
    obtain ⟨k, r⟩ := q
    by_cases hk : k = aid
    · rw [updateRec, if_pos hk] at hp
      rcases List.mem_cons.mp hp with hq | hq
      · exact ⟨(k, r), List.mem_cons_self _ _, by rw [hq], Or.inr (by rw [hq])⟩
      · obtain ⟨q0, hq0, h1, h2⟩ := ih hq
        exact ⟨q0, List.mem_cons_of_mem _ hq0, h1, h2⟩
    · rw [updateRec, if_neg hk] at hp
      rcases List.mem_cons.mp hp with hq | hq
      · exact ⟨(k, r), List.mem_cons_self _ _, by rw [hq], Or.inl (by rw [hq])⟩
      · obtain ⟨q0, hq0, h1, h2⟩ := ih hq
        exact ⟨q0, List.mem_cons_of_mem _ hq0, h1, h2⟩

theorem mem_storeCompat (s : Store) (p : String × Rec)
    (hp : p ∈ storeCompat s) :
    ∃ q ∈ s, p.1 = q.1 ∧ p.2 = compatRec q.2 := by
  unfold storeCompat at hp
  obtain ⟨q, hq, he⟩ := List.mem_map.mp hp
  exact ⟨q, hq, by rw [← he], by rw [← he]⟩

theorem mem_insertRec (s : Store) (aid : String) (r : Rec)
    (p : String × Rec) (hp : p ∈ insertRec s aid r) :
    p ∈ s ∨ p = (aid, r) := by
  induction s with
  | nil => simp [insertRec] at hp; exact Or.inr hp
  | cons q t ih =>
    obtain ⟨k, r0⟩ := q
    by_cases hk : k = aid
    · rw [insertRec, if_pos hk] at hp
      rcases List.mem_cons.mp hp with hq | hq
      · right; rw [hq, hk]
      · exact Or.inl (List.mem_cons_of_mem _ hq)
    · rw [insertRec, if_neg hk] at hp
      rcases List.mem_cons.mp hp with hq | hq
      · exact Or.inl (by rw [hq]; exact List.mem_cons_self _ _)
      · rcases ih hq with h | h
        · exact Or.inl (List.mem_cons_of_mem _ h)
        · exact Or.inr h

theorem mem_storeKeys_insertRec (s : Store) (aid x : String) (r : Rec)
    (hx : x ∈ storeKeys (insertRec s aid r)) :
    x ∈ storeKeys s ∨ x = aid := by
  induction s with
  | nil => simpa [insertRec, storeKeys] using hx
  | cons q t ih =>
    obtain ⟨k, r0⟩ := q
    by_cases hk : k = aid
    · rw [insertRec, if_pos hk] at hx
      rcases (by simpa [storeKeys] using hx : x = k ∨ x ∈ storeKeys t) with h | h
      · exact Or.inl (by simp [storeKeys, h])
      · exact Or.inl (by simp [storeKeys]; exact Or.inr (by simpa [storeKeys] using h))
    · rw [insertRec, if_neg hk] at hx
      rcases (by simpa [storeKeys] using hx : x = k ∨ x ∈ storeKeys (insertRec t aid r)) with h | h
      · exact Or.inl (by simp [storeKeys, h])
      · rcases ih h with h2 | h2
        · exact Or.inl (by simp [storeKeys]; exact Or.inr (by simpa [storeKeys] using h2))
        · exact Or.inr h2

theorem keysNodup_insertRec (s : Store) (aid : String) (r : Rec)
    (hn : keysNodup s) : keysNodup (insertRec s aid r) := by
  induction s with
  | nil => simp [insertRec, keysNodup, storeKeys]
  | cons q t ih =>
    obtain ⟨k, r0⟩ := q
    rw [keysNodup, show storeKeys ((k, r0) :: t) = k :: storeKeys t from rfl]
      at hn
    have hk_notin : k ∉ storeKeys t := (List.nodup_cons.mp hn).1
    have ht : keysNodup t := (List.nodup_cons.mp hn).2
    by_cases hk : k = aid
    · rw [keysNodup, insertRec, if_pos hk,
        show storeKeys ((k, r) :: t) = k :: storeKeys t from rfl]
      exact List.nodup_cons.mpr ⟨hk_notin, ht⟩
    · rw [keysNodup, insertRec, if_neg hk,
        show storeKeys ((k, r0) :: insertRec t aid r) =
          k :: storeKeys (insertRec t aid r) from rfl]
      refine List.nodup_cons.mpr ⟨?_, ih ht⟩
      intro hmem
      rcases mem_storeKeys_insertRec t aid k r hmem with h | h
      · exact hk_notin h
      · exact hk h

theorem keysNodup_updateRec (s : Store) (aid : String) (f : Rec → Rec)
    (hn : keysNodup s) : keysNodup (updateRec s aid f) := by
  unfold keysNodup
  rw [storeKeys_updateRec]
  exact hn

theorem keysNodup_storeCompat (s : Store) (hn : keysNodup s) :
    keysNodup (storeCompat s) := by
  unfold keysNodup
  rw [storeKeys_storeCompat]
  exact hn

/-! ### Fetch-stage lemmas -/

theorem saveArticle_quiet (s : Store) (a : Article) (now : String)
    (h : storedEdited s (toString a.id) = a.edited_at) :
    saveArticleAsMarkdown s a now = (s, false) := by
  simp only [saveArticleAsMarkdown]
  rw [if_pos h]

theorem saveArticle_write (s : Store) (a : Article) (now : String)
    (h : ¬ storedEdited s (toString a.id) = a.edited_at) :
    saveArticleAsMarkdown s a now =
      (insertRec s (toString a.id) (freshRec a now), true) := by
  simp only [saveArticleAsMarkdown]
  rw [if_neg h]

theorem fetchStage_quiet (st : PipelineState) (now : String) (A : List Article)
    (h : ∀ a ∈ A, storedEdited st.store (toString a.id) = a.edited_at) :
    fetchStage st now A = (st, 0) := by
  induction A with
  | nil => rfl
  | cons a rest ih =>
    have hq := saveArticle_quiet st.store a now (h a (List.mem_cons_self a rest))
    have ih' := ih (fun b hb => h b (List.mem_cons_of_mem a hb))
    simp [fetchStage, hq, ih']

theorem fetchStage_lookup_notin (now : String) (A : List Article) (x : String)
    (hx : ∀ a ∈ A, toString a.id ≠ x) :
    ∀ st : PipelineState,
      lookupRec (fetchStage st now A).1.store x = lookupRec st.store x := by
  induction A with
  | nil => intro st; rfl
  | cons a rest ih =>
    intro st
    have hax : toString a.id ≠ x := hx a (List.mem_cons_self a rest)
    have ih' := ih (fun b hb => hx b (List.mem_cons_of_mem a hb))
    by_cases hw : storedEdited st.store (toString a.id) = a.edited_at
    · simp only [fetchStage, saveArticle_quiet st.store a now hw]
      rw [if_neg Bool.false_ne_true]
      rw [ih' ⟨st.store, st.files⟩]
    · simp only [fetchStage, saveArticle_write st.store a now hw]
      rw [if_pos trivial]
      rw [ih' ⟨insertRec st.store (toString a.id) (freshRec a now),
        insertFile st.files (toString a.id)⟩]
      exact lookupRec_insertRec_ne _ _ _ _ (fun he => hax he.symm)

theorem freshRec_edited (a : Article) (now : String) :
    (freshRec a now).edited_at = a.edited_at := rfl

theorem fetchStage_post_edited (now : String) (A : List Article)
    (hnd : (A.map (fun a => toString a.id)).Nodup) :
    ∀ st : PipelineState, ∀ a ∈ A,
      storedEdited (fetchStage st now A).1.store (toString a.id) =
        a.edited_at := by
  induction A with
  | nil => intro st a ha; simp at ha
  | cons b rest ih =>
    have hnd' : (rest.map (fun a => toString a.id)).Nodup :=
      (List.nodup_cons.mp (by simpa using hnd)).2
    have hb_notin : toString b.id ∉ rest.map (fun a => toString a.id) :=
      (List.nodup_cons.mp (by simpa using hnd)).1
    have hb_not : ∀ c ∈ rest, toString c.id ≠ toString b.id := by
      intro c hc heq
      exact hb_notin (heq ▸ List.mem_map_of_mem (fun a => toString a.id) hc)
    intro st a ha
    rcases List.mem_cons.mp ha with hab | ha'
    · subst hab
      by_cases hw : storedEdited st.store (toString a.id) = a.edited_at
      · simp only [fetchStage, saveArticle_quiet st.store a now hw]
        rw [if_neg Bool.false_ne_true]
        unfold storedEdited
        rw [fetchStage_lookup_notin now rest (toString a.id) hb_not
          ⟨st.store, st.files⟩]
        exact hw
      · simp only [fetchStage, saveArticle_write st.store a now hw]
        rw [if_pos trivial]
        unfold storedEdited
        rw [fetchStage_lookup_notin now rest (toString a.id) hb_not
          ⟨insertRec st.store (toString a.id) (freshRec a now),
           insertFile st.files (toString a.id)⟩]
        rw [lookupRec_insertRec_self]
        rfl
    · by_cases hw : storedEdited st.store (toString b.id) = b.edited_at
      · simp only [fetchStage, saveArticle_quiet st.store b now hw]
        rw [if_neg Bool.false_ne_true]
        exact ih hnd' ⟨st.store, st.files⟩ a ha'
      · simp only [fetchStage, saveArticle_write st.store b now hw]
        rw [if_pos trivial]
        exact ih hnd' ⟨insertRec st.store (toString b.id) (freshRec b now),
          insertFile st.files (toString b.id)⟩ a ha'

theorem mem_insertFile (files : List String) (f x : String)
    (hx : x ∈ insertFile files f) : x ∈ files ∨ x = f := by
  unfold insertFile at hx
  by_cases hf : f ∈ files
  · rw [if_pos hf] at hx; exact Or.inl hx
  · rw [if_neg hf] at hx
    rcases List.mem_append.mp hx with h | h
    · exact Or.inl h
    · exact Or.inr (by simpa using h)

theorem mem_insertFile_of_mem (files : List String) (f x : String)
    (hx : x ∈ files) : x ∈ insertFile files f := by
  unfold insertFile
  by_cases hf : f ∈ files
  · rw [if_pos hf]; exact hx
  · rw [if_neg hf]; exact List.mem_append.mpr (Or.inl hx)

theorem self_mem_insertFile (files : List String) (f : String) :
    f ∈ insertFile files f := by
  unfold insertFile
  by_cases hf : f ∈ files
  · rw [if_pos hf]; exact hf
  · rw [if_neg hf]; exact List.mem_append.mpr (Or.inr (by simp))

theorem nodup_insertFile (files : List String) (f : String)
    (hn : files.Nodup) : (insertFile files f).Nodup := by
  unfold insertFile
  by_cases hf : f ∈ files
  · rw [if_pos hf]; exact hn
  · rw [if_neg hf]
    simpa [List.nodup_append] using ⟨hn, fun h => hf h⟩

theorem attachEligible_and_needs_freshRec (a : Article) (now : String) :
    (attachEligible (freshRec a now) && needsFileUpdate (freshRec a now)) =
      false := by
  simp [needsFileUpdate, freshRec, truthy]

theorem fetchStage_preserves_wf (now : String) (A : List Article) :
    ∀ st : PipelineState,
      keysNodup st.store → st.files.Nodup → FilesHaveRecords st →
      StaleHaveFiles st →
      keysNodup (fetchStage st now A).1.store ∧
      (fetchStage st now A).1.files.Nodup ∧
      FilesHaveRecords (fetchStage st now A).1 ∧
      StaleHaveFiles (fetchStage st now A).1 := by
  induction A with
  | nil => intro st h1 h2 h3 h4; exact ⟨h1, h2, h3, h4⟩
  | cons a rest ih =>
    intro st h1 h2 h3 h4
    by_cases hw : storedEdited st.store (toString a.id) = a.edited_at
    · simp only [fetchStage, saveArticle_quiet st.store a now hw]
      rw [if_neg Bool.false_ne_true]
      exact ih ⟨st.store, st.files⟩ h1 h2 h3 h4
    · simp only [fetchStage, saveArticle_write st.store a now hw]
      rw [if_pos trivial]
      apply ih
      · exact keysNodup_insertRec _ _ _ h1
      · exact nodup_insertFile _ _ h2
      · intro f hf
        rcases mem_insertFile _ _ _ hf with hmem | heq
        · by_cases hfa : f = toString a.id
          · subst hfa; rw [lookupRec_insertRec_self]; rfl
          · rw [lookupRec_insertRec_ne _ _ _ _ hfa]; exact h3 f hmem
        · subst heq; rw [lookupRec_insertRec_self]; rfl
      · intro p hp he
        rcases mem_insertRec _ _ _ _ hp with hmem | heq
        · exact mem_insertFile_of_mem _ _ _ (h4 p hmem he)
        · exfalso
          rw [heq] at he
          rw [attachEligible_and_needs_freshRec a now] at he
          exact Bool.false_ne_true he

/-! ### Upload-stage lemmas -/

theorem uploaderUpdate_keys (s : Store) (aid status : String)
    (fid err : Option String) (now : String) :
    storeKeys (uploaderUpdateUploadStatus s aid status fid err now) =
      storeKeys s := by
  unfold uploaderUpdateUploadStatus
  by_cases h : (lookupRec (storeCompat s) aid).isSome
  · rw [if_pos h, storeKeys_updateRec, storeKeys_storeCompat]
  · rw [if_neg h]

theorem uploaderUpdate_decision_other (s : Store) (aid status x : String)
    (fid err : Option String) (now : String) (h : x ≠ aid) :
    batchUploadDecision
        (lookupRec (uploaderUpdateUploadStatus s aid status fid err now) x) =
      batchUploadDecision (lookupRec s x) := by
  rcases uploaderUpdate_lookup_other s aid status x fid err now h with he | he
  · rw [he]
  · rw [he, batchUploadDecision_compat]

theorem uploaderUpdate_storedEdited
    (s : Store) (aid status x : String) (fid err : Option String)
    (now : String) :
    storedEdited (uploaderUpdateUploadStatus s aid status fid err now) x =
      storedEdited s x := by
  by_cases hx : x = aid
  · subst hx
    unfold storedEdited
    rw [uploaderUpdate_lookup_self]
    cases lookupRec s x with
    | none => rfl
    | some r => simp [uploaderTransform_edited, compatRec_edited_at]
  · unfold storedEdited
    rcases uploaderUpdate_lookup_other s aid status x fid err now hx with he | he
    · rw [he]
    · rw [he]
      cases lookupRec s x with
      | none => rfl
      | some r => simp [compatRec_edited_at]

theorem uploaderUpdate_isSome (s : Store) (aid status x : String)
    (fid err : Option String) (now : String) :
    (lookupRec (uploaderUpdateUploadStatus s aid status fid err now) x).isSome =
      (lookupRec s x).isSome := by
  by_cases hx : x = aid
  · subst hx
    rw [uploaderUpdate_lookup_self]
    cases lookupRec s x <;> rfl
  · rcases uploaderUpdate_lookup_other s aid status x fid err now hx with he | he
    · rw [he]
    · rw [he]; cases lookupRec s x <;> rfl

theorem uploaderUpdate_decision_self_success (s : Store) (aid : String)
    (fid err : Option String) (now : String)
    (h : (lookupRec s aid).isSome = true) (hf : truthy fid = true) :
    batchUploadDecision
        (lookupRec (uploaderUpdateUploadStatus s aid "uploaded" fid err now)
          aid) =
      none := by
  obtain ⟨r, hr⟩ := Option.isSome_iff_exists.mp h
  rw [uploaderUpdate_lookup_self, hr]
  simp only [Option.map_some']
  exact decision_uploaderTransform fid err now (compatRec r) hf

theorem decision_of_elig_needs (r : Rec)
    (he : (attachEligible r && needsFileUpdate r) = true) :
    batchUploadDecision (some r) = some "content_updated" := by
  rw [Bool.and_eq_true] at he
  obtain ⟨h1, h2⟩ := he
  unfold attachEligible at h1
  unfold needsFileUpdate at h2
  rw [Bool.and_eq_true] at h1
  rw [Bool.and_eq_true, Bool.and_eq_true] at h2
  have hst : r.openai_upload_status = some "uploaded" := of_decide_eq_true h1.1
  have hne : r.updated_at ≠ r.last_uploaded_updated_at := of_decide_eq_true h2.2
  simp [batchUploadDecision, hst, h2.1.1, h2.1.2, hne]

theorem uploadFilesBatch_keys (fidOf : String → String) (now : String)
    (L : List String) : ∀ s : Store,
    storeKeys (uploadFilesBatch s fidOf now L).1 = storeKeys s := by
  induction L with
  | nil => intro s; rfl
  | cons f rest ih =>
    intro s
    simp only [uploadFilesBatch]
    rw [ih, uploaderUpdate_keys]

theorem uploadFilesBatch_storedEdited (fidOf : String → String) (now : String)
    (L : List String) (x : String) : ∀ s : Store,
    storedEdited (uploadFilesBatch s fidOf now L).1 x = storedEdited s x := by
  induction L with
  | nil => intro s; rfl
  | cons f rest ih =>
    intro s
    simp only [uploadFilesBatch]
    rw [ih, uploaderUpdate_storedEdited]

theorem uploadFilesBatch_isSome (fidOf : String → String) (now : String)
    (L : List String) (x : String) : ∀ s : Store,
    (lookupRec (uploadFilesBatch s fidOf now L).1 x).isSome =
      (lookupRec s x).isSome := by
  induction L with
  | nil => intro s; rfl
  | cons f rest ih =>
    intro s
    simp only [uploadFilesBatch]
    rw [ih, uploaderUpdate_isSome]

theorem uploadFilesBatch_decision_notin (fidOf : String → String)
    (now : String) (L : List String) (x : String) (hx : x ∉ L) :
    ∀ s : Store,
    batchUploadDecision (lookupRec (uploadFilesBatch s fidOf now L).1 x) =
      batchUploadDecision (lookupRec s x) := by
  induction L with
  | nil => intro s; rfl
  | cons f rest ih =>
    intro s
    have hxf : x ≠ f := fun he => hx (he ▸ List.mem_cons_self f rest)
    have hxr : x ∉ rest := fun hm => hx (List.mem_cons_of_mem f hm)
    simp only [uploadFilesBatch]
    rw [ih hxr, uploaderUpdate_decision_other _ _ _ _ _ _ _ hxf]

theorem uploadFilesBatch_decision_mem (fidOf : String → String) (now : String)
    (L : List String) (hnd : L.Nodup)
    (hfid : ∀ f, truthy (some (fidOf f)) = true) :
    ∀ s : Store, (∀ f ∈ L, (lookupRec s f).isSome = true) →
    ∀ f ∈ L,
      batchUploadDecision (lookupRec (uploadFilesBatch s fidOf now L).1 f) =
        none := by
  induction L with
  | nil => intro s _ f hf; simp at hf
  | cons g rest ih =>
    intro s hrec f hf
    have hnd' := List.nodup_cons.mp hnd
    rcases List.mem_cons.mp hf with hfg | hfr
    · subst hfg
      simp only [uploadFilesBatch]
      rw [uploadFilesBatch_decision_notin fidOf now rest f hnd'.1]
      exact uploaderUpdate_decision_self_success s f (some (fidOf f)) none now
        (hrec f (List.mem_cons_self f rest)) (hfid f)
    · simp only [uploadFilesBatch]
      apply ih hnd'.2 _ _ f hfr
      intro f2 hf2
      rw [uploaderUpdate_isSome]
      exact hrec f2 (List.mem_cons_of_mem g hf2)

theorem UploadShape_refl (r : Rec) : UploadShape r r := Or.inl rfl

theorem UploadShape_trans (a b c : Rec) (h1 : UploadShape a b)
    (h2 : UploadShape b c) : UploadShape a c := by
  rcases h2 with h2 | h2 | h2
  · rw [h2]; exact h1
  · rcases h1 with h1 | h1 | h1
    · rw [h2, h1]; exact Or.inr (Or.inl rfl)
    · rw [h2, h1, compatRec_compatRec]; exact Or.inr (Or.inl rfl)
    · right; right
      rw [h2, needsFileUpdate_compat]
      exact h1
  · exact Or.inr (Or.inr h2)

theorem mem_uploaderUpdate (s : Store) (aid status : String)
    (fid err : Option String) (now : String) (hf : truthy fid = true)
    (p : String × Rec)
    (hp : p ∈ uploaderUpdateUploadStatus s aid status fid err now) :
    ∃ q ∈ s, p.1 = q.1 ∧ UploadShape q.2 p.2 := by
  unfold uploaderUpdateUploadStatus at hp
  by_cases h : (lookupRec (storeCompat s) aid).isSome
  · rw [if_pos h] at hp
    obtain ⟨q1, hq1, hk1, hv1⟩ := mem_updateRec _ _ _ _ hp
    obtain ⟨q0, hq0, hk0, hv0⟩ := mem_storeCompat _ _ hq1
    refine ⟨q0, hq0, hk1.trans hk0, ?_⟩
    rcases hv1 with hv | hv
    · rw [hv, hv0]; exact Or.inr (Or.inl rfl)
    · right; right
      rw [hv]
      exact needsFileUpdate_uploaderTransform status fid err now q1.2 hf
  · rw [if_neg h] at hp
    exact ⟨p, hp, rfl, UploadShape_refl p.2⟩

theorem mem_uploadFilesBatch (fidOf : String → String) (now : String)
    (L : List String) (hfid : ∀ f, truthy (some (fidOf f)) = true) :
    ∀ s : Store, ∀ p ∈ (uploadFilesBatch s fidOf now L).1,
      ∃ q ∈ s, p.1 = q.1 ∧ UploadShape q.2 p.2 := by
  induction L with
  | nil => intro s p hp; exact ⟨p, hp, rfl, UploadShape_refl p.2⟩
  | cons f rest ih =>
    intro s p hp
    simp only [uploadFilesBatch] at hp
    obtain ⟨q1, hq1, hk1, hs1⟩ := ih _ p hp
    obtain ⟨q0, hq0, hk0, hs0⟩ := mem_uploaderUpdate s f "uploaded"
      (some (fidOf f)) none now (hfid f) q1 hq1
    exact ⟨q0, hq0, hk1.trans hk0, UploadShape_trans _ _ _ hs0 hs1⟩

theorem uploadBatch_quiet (s : Store) (files : List String)
    (fidOf : String → String) (now : String)
    (h : ∀ f ∈ files, batchUploadDecision (lookupRec s f) = none) :
    uploadMarkdownFilesBatch s files fidOf now = (s, 0) := by
  simp only [uploadMarkdownFilesBatch]
  by_cases hemp : files.isEmpty
  · rw [if_pos hemp]
  · rw [if_neg hemp]
    have hsel : files.filter
        (fun f => (batchUploadDecision (lookupRec (storeCompat s) f)).isSome)
        = [] := by
      apply List.filter_eq_nil_iff.mpr
      intro f hf
      rw [lookupRec_storeCompat, batchUploadDecision_compat, h f hf]
      simp
    rw [hsel]
    rw [if_pos List.isEmpty_nil]

theorem uploadStage_post_decision (s : Store) (files : List String)
    (fidOf : String → String) (now : String)
    (hfnd : files.Nodup)
    (hrec : ∀ f ∈ files, (lookupRec s f).isSome = true)
    (hfid : ∀ f, truthy (some (fidOf f)) = true) :
    ∀ f ∈ files,
      batchUploadDecision
        (lookupRec (uploadMarkdownFilesBatch s files fidOf now).1 f) =
      none := by
  intro f hf
  simp only [uploadMarkdownFilesBatch]
  by_cases hemp : files.isEmpty
  · rw [List.isEmpty_iff] at hemp
    rw [hemp] at hf
    simp at hf
  · rw [if_neg hemp]
    by_cases hselE : files.filter
        (fun g => (batchUploadDecision (lookupRec (storeCompat s) g)).isSome)
        = []
    · rw [hselE, if_pos List.isEmpty_nil]
      have := List.filter_eq_nil_iff.mp hselE f hf
      rw [lookupRec_storeCompat, batchUploadDecision_compat] at this
      simpa using this
    · rw [if_neg (by simpa [List.isEmpty_iff] using hselE)]
      by_cases hfs : f ∈ files.filter
          (fun g => (batchUploadDecision (lookupRec (storeCompat s) g)).isSome)
      · apply uploadFilesBatch_decision_mem fidOf now _ (hfnd.filter _) hfid
        · intro g hg
          exact hrec g (List.mem_of_mem_filter hg)
        · exact hfs
      · rw [uploadFilesBatch_decision_notin fidOf now _ f hfs]
        have : ¬ (batchUploadDecision (lookupRec (storeCompat s) f)).isSome
            = true := by
          intro hcon
          exact hfs (List.mem_filter.mpr ⟨hf, hcon⟩)
        rw [lookupRec_storeCompat, batchUploadDecision_compat] at this
        simpa using this

theorem uploadStage_storedEdited (s : Store) (files : List String)
    (fidOf : String → String) (now : String) (x : String) :
    storedEdited (uploadMarkdownFilesBatch s files fidOf now).1 x =
      storedEdited s x := by
  simp only [uploadMarkdownFilesBatch]
  by_cases hemp : files.isEmpty
  · rw [if_pos hemp]
  · rw [if_neg hemp]
    by_cases hselE : files.filter
        (fun g => (batchUploadDecision (lookupRec (storeCompat s) g)).isSome)
        = []
    · rw [hselE, if_pos List.isEmpty_nil]
    · rw [if_neg (by simpa [List.isEmpty_iff] using hselE)]
      exact uploadFilesBatch_storedEdited fidOf now _ x s

theorem uploadStage_keys (s : Store) (files : List String)
    (fidOf : String → String) (now : String) :
    storeKeys (uploadMarkdownFilesBatch s files fidOf now).1 = storeKeys s := by
  simp only [uploadMarkdownFilesBatch]
  by_cases hemp : files.isEmpty
  · rw [if_pos hemp]
  · rw [if_neg hemp]
    by_cases hselE : files.filter
        (fun g => (batchUploadDecision (lookupRec (storeCompat s) g)).isSome)
        = []
    · rw [hselE, if_pos List.isEmpty_nil]
    · rw [if_neg (by simpa [List.isEmpty_iff] using hselE)]
      exact uploadFilesBatch_keys fidOf now _ s

theorem mem_uploadStage (s : Store) (files : List String)
    (fidOf : String → String) (now : String)
    (hfid : ∀ f, truthy (some (fidOf f)) = true) (p : String × Rec)
    (hp : p ∈ (uploadMarkdownFilesBatch s files fidOf now).1) :
    ∃ q ∈ s, p.1 = q.1 ∧ UploadShape q.2 p.2 := by
  simp only [uploadMarkdownFilesBatch] at hp
  by_cases hemp : files.isEmpty
  · rw [if_pos hemp] at hp
    exact ⟨p, hp, rfl, UploadShape_refl p.2⟩
  · rw [if_neg hemp] at hp
    by_cases hselE : files.filter
        (fun g => (batchUploadDecision (lookupRec (storeCompat s) g)).isSome)
        = []
    · rw [hselE, if_pos List.isEmpty_nil] at hp
      exact ⟨p, hp, rfl, UploadShape_refl p.2⟩
    · rw [if_neg (by simpa [List.isEmpty_iff] using hselE)] at hp
      exact mem_uploadFilesBatch fidOf now _ hfid s p hp

theorem uploadStage_no_stale (s : Store) (files : List String)
    (fidOf : String → String) (now : String)
    (hk : keysNodup s) (hfnd : files.Nodup)
    (hrec : ∀ f ∈ files, (lookupRec s f).isSome = true)
    (hstale : ∀ p ∈ s, (attachEligible p.2 && needsFileUpdate p.2) = true →
      p.1 ∈ files)
    (hfid : ∀ f, truthy (some (fidOf f)) = true) :
    ∀ p ∈ (uploadMarkdownFilesBatch s files fidOf now).1,
      (attachEligible p.2 && needsFileUpdate p.2) = false := by
  intro p hp
  cases hb : (attachEligible p.2 && needsFileUpdate p.2) with
  | false => rfl
  | true =>
    exfalso
    obtain ⟨q, hq, hkey, hshape⟩ :=
      mem_uploadStage s files fidOf now hfid p hp
    have hq2 : (attachEligible q.2 && needsFileUpdate q.2) = true := by
      rcases hshape with hs | hs | hs
      · rw [← hs]; exact hb
      · have e1 : attachEligible p.2 = attachEligible q.2 := by
          rw [hs]; exact attachEligible_compat q.2
        have e2 : needsFileUpdate p.2 = needsFileUpdate q.2 := by
          rw [hs]; exact needsFileUpdate_compat q.2
        rw [← e1, ← e2]; exact hb
      · rw [hs] at hb; simp at hb
    have hmemf : q.1 ∈ files := hstale q hq hq2
    have hknew : keysNodup (uploadMarkdownFilesBatch s files fidOf now).1 := by
      unfold keysNodup
      rw [uploadStage_keys]
      exact hk
    have hlook : lookupRec (uploadMarkdownFilesBatch s files fidOf now).1 p.1 =
        some p.2 := lookupRec_eq_of_mem _ p hknew hp
    have hdec := uploadStage_post_decision s files fidOf now hfnd hrec hfid
      q.1 hmemf
    rw [← hkey, hlook, decision_of_elig_needs p.2 hb] at hdec
    exact Option.noConfusion hdec

/-! ### Attach-stage lemmas -/

theorem applyAttaches_keys (sid now : String) (L : List (String × Rec)) :
    ∀ m : Store, storeKeys (applyAttaches sid now L m) = storeKeys m := by
  induction L with
  | nil => intro m; rfl
  | cons q rest ih =>
    intro m
    simp only [applyAttaches]
    rw [ih, storeKeys_updateRec]

theorem applyAttaches_lookup_notin (sid now : String) (L : List (String × Rec))
    (x : String) (hx : x ∉ L.map Prod.fst) :
    ∀ m : Store, lookupRec (applyAttaches sid now L m) x = lookupRec m x := by
  induction L with
  | nil => intro m; rfl
  | cons q rest ih =>
    intro m
    have hxq : x ≠ q.1 := by
      intro he
      exact hx (he ▸ List.mem_map_of_mem Prod.fst (List.mem_cons_self q rest))
    have hxr : x ∉ rest.map Prod.fst := by
      intro hm
      rcases List.mem_map.mp hm with ⟨p, hp, he⟩
      exact hx (he ▸ List.mem_map_of_mem Prod.fst (List.mem_cons_of_mem q hp))
    simp only [applyAttaches]
    rw [ih hxr, lookupRec_updateRec_ne _ _ _ _ hxq]

theorem applyAttaches_lookup_mem (sid now : String) (L : List (String × Rec))
    (hnd : (L.map Prod.fst).Nodup) (q : String × Rec) (hq : q ∈ L) :
    ∀ m : Store, lookupRec (applyAttaches sid now L m) q.1 =
      (lookupRec m q.1).map (setAttachedFields sid now) := by
  induction L with
  | nil => simp at hq
  | cons q0 rest ih =>
    intro m
    rw [List.map_cons] at hnd
    have hnd' := List.nodup_cons.mp hnd
    rcases List.mem_cons.mp hq with hq0 | hqr
    · subst hq0
      simp only [applyAttaches]
      rw [applyAttaches_lookup_notin sid now rest q.1 hnd'.1,
        lookupRec_updateRec_self]
    · have hne : q.1 ≠ q0.1 := by
        intro he
        exact hnd'.1 (he ▸ List.mem_map_of_mem Prod.fst hqr)
      simp only [applyAttaches]
      rw [ih hnd'.2 hqr, lookupRec_updateRec_ne _ _ _ _ hne]

theorem setAttachedFields_comp_self (sid now : String) :
    (fun r => setAttachedFields sid now (setAttachedFields sid now r)) =
      setAttachedFields sid now := by
  funext r
  exact setAttachedFields_idem sid now r

theorem applyAttaches_lookup_cases (sid now : String)
    (L : List (String × Rec)) (x : String) :
    ∀ m : Store, lookupRec (applyAttaches sid now L m) x = lookupRec m x ∨
      lookupRec (applyAttaches sid now L m) x =
        (lookupRec m x).map (setAttachedFields sid now) := by
  induction L with
  | nil => intro m; exact Or.inl rfl
  | cons q rest ih =>
    intro m
    simp only [applyAttaches]
    rcases ih (updateRec m q.1 (setAttachedFields sid now)) with hc | hc
    · by_cases hx : x = q.1
      · subst hx
        rw [hc, lookupRec_updateRec_self]
        exact Or.inr rfl
      · rw [hc, lookupRec_updateRec_ne _ _ _ _ hx]
        exact Or.inl rfl
    · by_cases hx : x = q.1
      · subst hx
        rw [hc, lookupRec_updateRec_self, Option.map_map]
        right
        rw [show (setAttachedFields sid now ∘ setAttachedFields sid now) =
          setAttachedFields sid now from funext
            (fun r => setAttachedFields_idem sid now r)]
      · rw [hc, lookupRec_updateRec_ne _ _ _ _ hx]
        exact Or.inr rfl

theorem mem_applyAttaches (sid now : String) (L : List (String × Rec)) :
    ∀ m : Store, ∀ q ∈ applyAttaches sid now L m,
      ∃ q0 ∈ m, q.1 = q0.1 ∧
        (q.2 = q0.2 ∨ q.2 = setAttachedFields sid now q0.2) := by
  induction L with
  | nil => intro m q hq; exact ⟨q, hq, rfl, Or.inl rfl⟩
  | cons p rest ih =>
    intro m q hq
    simp only [applyAttaches] at hq
    obtain ⟨q1, hq1, hk1, hv1⟩ := ih _ q hq
    obtain ⟨q0, hq0, hk0, hv0⟩ := mem_updateRec _ _ _ _ hq1
    refine ⟨q0, hq0, hk1.trans hk0, ?_⟩
    rcases hv1 with hv | hv <;> rcases hv0 with hv' | hv'
    · exact Or.inl (hv.trans hv')
    · exact Or.inr (hv.trans hv')
    · rw [hv, hv']; exact Or.inr rfl
    · rw [hv, hv', setAttachedFields_idem]; exact Or.inr rfl

theorem classify_eq_needsUpdate (r : Rec)
    (h : classifyAttach r = AttachClass.needsUpdate) :
    (attachEligible r && needsFileUpdate r) = true := by
  unfold classifyAttach at h
  by_cases h1 : r.skip_vector_store
  · rw [if_pos h1] at h; exact absurd h (by decide)
  · rw [if_neg h1] at h
    by_cases h2 : attachEligible r = true
    · rw [if_pos h2] at h
      by_cases h3 : needsFileUpdate r = true
      · rw [h2, h3]; rfl
      · rw [if_neg h3] at h
        by_cases h4 : jget r.vector_store_attachment_status = some "attached"
        · rw [if_pos h4] at h; exact absurd h (by decide)
        · rw [if_neg h4] at h; exact absurd h (by decide)
    · rw [if_neg h2] at h; exact absurd h (by decide)

theorem classify_eq_toAttach (r : Rec)
    (h : classifyAttach r = AttachClass.toAttach) :
    attachEligible r = true ∧ needsFileUpdate r = false := by
  unfold classifyAttach at h
  by_cases h1 : r.skip_vector_store
  · rw [if_pos h1] at h; exact absurd h (by decide)
  · rw [if_neg h1] at h
    by_cases h2 : attachEligible r = true
    · rw [if_pos h2] at h
      by_cases h3 : needsFileUpdate r = true
      · rw [if_pos h3] at h; exact absurd h (by decide)
      · refine ⟨h2, by simpa using h3⟩
    · rw [if_neg h2] at h; exact absurd h (by decide)

theorem attachEligible_setAttached (sid now : String) (r : Rec) :
    attachEligible (setAttachedFields sid now r) = attachEligible r := rfl

theorem needsFileUpdate_setAttached (sid now : String) (r : Rec) :
    needsFileUpdate (setAttachedFields sid now r) = needsFileUpdate r := rfl

theorem classify_setAttached (sid now : String) (r : Rec)
    (he : attachEligible r = true) (hn : needsFileUpdate r = false) :
    classifyAttach (setAttachedFields sid now r) = AttachClass.skipped ∨
    classifyAttach (setAttachedFields sid now r) =
      AttachClass.alreadyAttached := by
  unfold classifyAttach
  by_cases hs : (setAttachedFields sid now r).skip_vector_store
  · rw [if_pos hs]; exact Or.inl rfl
  · rw [if_neg hs]
    rw [if_pos (by rw [attachEligible_setAttached, he] :
      attachEligible (setAttachedFields sid now r) = true)]
    rw [if_neg (by rw [needsFileUpdate_setAttached, hn]; exact
      Bool.false_ne_true :
      ¬ needsFileUpdate (setAttachedFields sid now r) = true)]
    have hvs :
        jget (setAttachedFields sid now r).vector_store_attachment_status =
          some "attached" := rfl
    rw [if_pos hvs]
    exact Or.inr rfl

theorem compatRec_fixed_of_mem_storeCompat (s : Store) (q : String × Rec)
    (hq : q ∈ storeCompat s) : compatRec q.2 = q.2 := by
  obtain ⟨q0, _, _, hv⟩ := mem_storeCompat s q hq
  rw [hv, compatRec_compatRec]

theorem attachRun_fields_empty (s : Store) (sid now : String)
    (he : (storeCompat s).isEmpty = true) :
    attachUploadedFilesToVectorStore s sid now =
      { store := s, detachCalls := [], attachCalls := [], filesUpdated := 0
        filesUpdateFailed := 0, addedCount := 0, alreadyAttachedCount := 0
        saved := false } := by
  simp only [attachUploadedFilesToVectorStore]
  rw [if_pos he]

theorem attachRun_fields_early (s : Store) (sid now : String)
    (he : ¬ (storeCompat s).isEmpty = true)
    (hcond : ((((storeCompat s).filter
          (fun p => classifyAttach p.2 = AttachClass.toAttach)).isEmpty) &&
        (((storeCompat s).filter
          (fun p => classifyAttach p.2 = AttachClass.needsUpdate)).isEmpty))
        = true) :
    attachUploadedFilesToVectorStore s sid now =
      { store := s, detachCalls := [], attachCalls := [], filesUpdated := 0
        filesUpdateFailed := 0, addedCount := 0
        alreadyAttachedCount := ((storeCompat s).filter
          (fun p => classifyAttach p.2 = AttachClass.alreadyAttached)).length
        saved := false } := by
  simp only [attachUploadedFilesToVectorStore]
  rw [if_neg he, if_pos hcond]

theorem attachRun_fields_saved (s : Store) (sid now : String)
    (he : ¬ (storeCompat s).isEmpty = true)
    (hcond : ¬ ((((storeCompat s).filter
          (fun p => classifyAttach p.2 = AttachClass.toAttach)).isEmpty) &&
        (((storeCompat s).filter
          (fun p => classifyAttach p.2 = AttachClass.needsUpdate)).isEmpty))
        = true) :
    attachUploadedFilesToVectorStore s sid now =
      { store := applyAttaches sid now ((storeCompat s).filter
          (fun p => classifyAttach p.2 = AttachClass.toAttach)) (storeCompat s)
        detachCalls := ((storeCompat s).filter
          (fun p => classifyAttach p.2 = AttachClass.needsUpdate)).filterMap
            (fun p =>
              if jget p.2.vector_store_attachment_status = some "attached" then
                some (p.1, p.2.openai_file_id.getD "")
              else none)
        attachCalls := ((storeCompat s).filter
          (fun p => classifyAttach p.2 = AttachClass.toAttach)).map
            (fun p => (p.1, p.2.openai_file_id.getD ""))
        filesUpdated := 0
        filesUpdateFailed := ((storeCompat s).filter
          (fun p => classifyAttach p.2 = AttachClass.needsUpdate)).length
        addedCount := ((storeCompat s).filter
          (fun p => classifyAttach p.2 = AttachClass.toAttach)).length
        alreadyAttachedCount := ((storeCompat s).filter
          (fun p => classifyAttach p.2 = AttachClass.alreadyAttached)).length
        saved := true } := by
  simp only [attachUploadedFilesToVectorStore]
  rw [if_neg he, if_neg hcond]

theorem attachRun_of_quiet (s : Store) (sid now : String)
    (h : AttachQuiet s) :
    (attachUploadedFilesToVectorStore s sid now).store = s ∧
    (attachUploadedFilesToVectorStore s sid now).attachCalls = [] ∧
    (attachUploadedFilesToVectorStore s sid now).detachCalls = [] := by
  by_cases he : (storeCompat s).isEmpty = true
  · rw [attachRun_fields_empty s sid now he]
    exact ⟨rfl, rfl, rfl⟩
  · have hatt : (storeCompat s).filter
        (fun p => classifyAttach p.2 = AttachClass.toAttach) = [] :=
      List.filter_eq_nil_iff.mpr (fun p hp => by simpa using (h p hp).2)
    have hneed : (storeCompat s).filter
        (fun p => classifyAttach p.2 = AttachClass.needsUpdate) = [] :=
      List.filter_eq_nil_iff.mpr (fun p hp => by simpa using (h p hp).1)
    rw [attachRun_fields_early s sid now he (by rw [hatt, hneed]; rfl)]
    exact ⟨rfl, rfl, rfl⟩

theorem attachRun_store_lookup_cases (s : Store) (sid now x : String) :
    lookupRec (attachUploadedFilesToVectorStore s sid now).store x =
      lookupRec s x ∨
    lookupRec (attachUploadedFilesToVectorStore s sid now).store x =
      (lookupRec s x).map compatRec ∨
    lookupRec (attachUploadedFilesToVectorStore s sid now).store x =
      (lookupRec s x).map
        (fun r => setAttachedFields sid now (compatRec r)) := by
  by_cases he : (storeCompat s).isEmpty = true
  · rw [attachRun_fields_empty s sid now he]
    exact Or.inl rfl
  · by_cases hcond : (((storeCompat s).filter
        (fun p => classifyAttach p.2 = AttachClass.toAttach)).isEmpty &&
        ((storeCompat s).filter
        (fun p => classifyAttach p.2 = AttachClass.needsUpdate)).isEmpty) = true
    · rw [attachRun_fields_early s sid now he hcond]
      exact Or.inl rfl
    · have hst : (attachUploadedFilesToVectorStore s sid now).store =
          applyAttaches sid now ((storeCompat s).filter
            (fun p => classifyAttach p.2 = AttachClass.toAttach))
            (storeCompat s) := by
        rw [attachRun_fields_saved s sid now he hcond]
      rcases applyAttaches_lookup_cases sid now ((storeCompat s).filter
          (fun p => classifyAttach p.2 = AttachClass.toAttach)) x
          (storeCompat s) with hc | hc
      · rw [hst, hc, lookupRec_storeCompat]
        exact Or.inr (Or.inl rfl)
      · rw [hst, hc, lookupRec_storeCompat, Option.map_map]
        right; right; rfl

theorem batchUploadDecision_compat_some (r : Rec) :
    batchUploadDecision (some (compatRec r)) = batchUploadDecision (some r) :=
  by simpa using batchUploadDecision_compat (some r)

theorem attachRun_storedEdited (s : Store) (sid now x : String) :
    storedEdited (attachUploadedFilesToVectorStore s sid now).store x =
      storedEdited s x := by
  unfold storedEdited
  rcases attachRun_store_lookup_cases s sid now x with hc | hc | hc
  · rw [hc]
  · rw [hc]
    cases lookupRec s x with
    | none => rfl
    | some r => simp [compatRec_edited_at]
  · rw [hc]
    cases lookupRec s x with
    | none => rfl
    | some r => simp [setAttachedFields_edited_at, compatRec_edited_at]

theorem attachRun_decision (s : Store) (sid now x : String) :
    batchUploadDecision
        (lookupRec (attachUploadedFilesToVectorStore s sid now).store x) =
      batchUploadDecision (lookupRec s x) := by
  rcases attachRun_store_lookup_cases s sid now x with hc | hc | hc
  · rw [hc]
  · rw [hc, batchUploadDecision_compat]
  · rw [hc]
    cases lookupRec s x with
    | none => rfl
    | some r =>
      simp only [Option.map_some']
      rw [batchUploadDecision_setAttached, batchUploadDecision_compat_some]

theorem attachRun_keys (s : Store) (sid now : String) :
    storeKeys (attachUploadedFilesToVectorStore s sid now).store =
      storeKeys s := by
  by_cases he : (storeCompat s).isEmpty = true
  · rw [attachRun_fields_empty s sid now he]
  · by_cases hcond : (((storeCompat s).filter
        (fun p => classifyAttach p.2 = AttachClass.toAttach)).isEmpty &&
        ((storeCompat s).filter
        (fun p => classifyAttach p.2 = AttachClass.needsUpdate)).isEmpty) = true
    · rw [attachRun_fields_early s sid now he hcond]
    · have hst : (attachUploadedFilesToVectorStore s sid now).store =
          applyAttaches sid now ((storeCompat s).filter
            (fun p => classifyAttach p.2 = AttachClass.toAttach))
            (storeCompat s) := by
        rw [attachRun_fields_saved s sid now he hcond]
      rw [hst, applyAttaches_keys, storeKeys_storeCompat]

theorem attachRun_post_quiet (s : Store) (sid now : String)
    (hk : keysNodup s)
    (hns : ∀ p ∈ s, (attachEligible p.2 && needsFileUpdate p.2) = false) :
    AttachQuiet (attachUploadedFilesToVectorStore s sid now).store := by
  have hkC : keysNodup (storeCompat s) := keysNodup_storeCompat s hk
  have hnsC : ∀ p ∈ storeCompat s,
      (attachEligible p.2 && needsFileUpdate p.2) = false := by
    intro p hp
    obtain ⟨q, hq, _, hv⟩ := mem_storeCompat s p hp
    rw [hv, attachEligible_compat, needsFileUpdate_compat]
    exact hns q hq
  by_cases he : (storeCompat s).isEmpty = true
  · have hstore : (attachUploadedFilesToVectorStore s sid now).store = s := by
      rw [attachRun_fields_empty s sid now he]
    rw [hstore]
    intro p hp
    rw [List.isEmpty_iff.mp he] at hp
    simp at hp
  · by_cases hcond : (((storeCompat s).filter
        (fun p => classifyAttach p.2 = AttachClass.toAttach)).isEmpty &&
        ((storeCompat s).filter
        (fun p => classifyAttach p.2 = AttachClass.needsUpdate)).isEmpty) = true
    · have hstore : (attachUploadedFilesToVectorStore s sid now).store = s := by
        rw [attachRun_fields_early s sid now he hcond]
      rw [hstore]
      rw [Bool.and_eq_true] at hcond
      have h1 := List.isEmpty_iff.mp hcond.1
      have h2 := List.isEmpty_iff.mp hcond.2
      intro p hp
      constructor
      · intro hcls
        have hmem : p ∈ (storeCompat s).filter
            (fun q => classifyAttach q.2 = AttachClass.needsUpdate) :=
          List.mem_filter.mpr ⟨hp, by simp [hcls]⟩
        rw [h2] at hmem
        simp at hmem
      · intro hcls
        have hmem : p ∈ (storeCompat s).filter
            (fun q => classifyAttach q.2 = AttachClass.toAttach) :=
          List.mem_filter.mpr ⟨hp, by simp [hcls]⟩
        rw [h1] at hmem
        simp at hmem
    · have hst : (attachUploadedFilesToVectorStore s sid now).store =
          applyAttaches sid now ((storeCompat s).filter
            (fun p => classifyAttach p.2 = AttachClass.toAttach))
            (storeCompat s) := by
        rw [attachRun_fields_saved s sid now he hcond]
      rw [hst]
      have hndT : (((storeCompat s).filter
          (fun p => classifyAttach p.2 = AttachClass.toAttach)).map
            Prod.fst).Nodup :=
        List.Nodup.sublist
          (List.Sublist.map Prod.fst (List.filter_sublist _)) hkC
      have hkF : keysNodup (applyAttaches sid now ((storeCompat s).filter
          (fun p => classifyAttach p.2 = AttachClass.toAttach))
          (storeCompat s)) := by
        unfold keysNodup
        rw [applyAttaches_keys]
        exact hkC
      intro p hp
      obtain ⟨q, hqmem, hpk, hpv⟩ := mem_storeCompat _ p hp
      have hqfix : compatRec q.2 = q.2 := by
        obtain ⟨q0, hq0, _, hv0⟩ := mem_applyAttaches sid now _
          (storeCompat s) q hqmem
        rcases hv0 with hv | hv
        · rw [hv]
          exact compatRec_fixed_of_mem_storeCompat s q0 hq0
        · rw [hv, compatRec_setAttachedFields]
      have hpq : p.2 = q.2 := by rw [hpv, hqfix]
      have hlookF : lookupRec (applyAttaches sid now ((storeCompat s).filter
          (fun r => classifyAttach r.2 = AttachClass.toAttach))
          (storeCompat s)) q.1 = some q.2 :=
        lookupRec_eq_of_mem _ q hkF hqmem
      have hmemkeys : q.1 ∈ storeKeys (storeCompat s) := by
        rw [← applyAttaches_keys sid now ((storeCompat s).filter
          (fun r => classifyAttach r.2 = AttachClass.toAttach))
          (storeCompat s), ← isSome_lookupRec_iff, hlookF]
        rfl
      obtain ⟨m0, hm0⟩ := Option.isSome_iff_exists.mp
        ((isSome_lookupRec_iff _ _).mpr hmemkeys)
      have hm0mem : (q.1, m0) ∈ storeCompat s := mem_of_lookupRec_eq _ _ _ hm0
      cases hcls : classifyAttach m0 with
      | needsUpdate =>
        exfalso
        have htru := classify_eq_needsUpdate m0 hcls
        have hf := hnsC (q.1, m0) hm0mem
        rw [hf] at htru
        exact Bool.false_ne_true htru
      | toAttach =>
        have hmemT : (q.1, m0) ∈ (storeCompat s).filter
            (fun r => classifyAttach r.2 = AttachClass.toAttach) :=
          List.mem_filter.mpr ⟨hm0mem, by simp [hcls]⟩
        have hlm := applyAttaches_lookup_mem sid now _ hndT (q.1, m0) hmemT
          (storeCompat s)
        rw [hm0] at hlm
        rw [hlookF] at hlm
        have hq2 : q.2 = setAttachedFields sid now m0 := Option.some.inj hlm
        obtain ⟨helig, hneeds⟩ := classify_eq_toAttach m0 hcls
        rcases classify_setAttached sid now m0 helig hneeds with hc | hc
        · rw [hpq, hq2, hc]
          exact ⟨by decide, by decide⟩
        · rw [hpq, hq2, hc]
          exact ⟨by decide, by decide⟩
      | skipped =>
        have hnotin : q.1 ∉ ((storeCompat s).filter
            (fun r => classifyAttach r.2 = AttachClass.toAttach)).map
              Prod.fst := by
          intro hmemk
          rcases List.mem_map.mp hmemk with ⟨pe, hpe, hpk1⟩
          have hpem : pe ∈ storeCompat s := List.mem_of_mem_filter hpe
          have hle : lookupRec (storeCompat s) pe.1 = some pe.2 :=
            lookupRec_eq_of_mem _ pe hkC hpem
          rw [hpk1, hm0] at hle
          have hpecls : classifyAttach pe.2 = AttachClass.toAttach :=
            of_decide_eq_true (List.mem_filter.mp hpe).2
          rw [show pe.2 = m0 from Option.some.inj hle.symm, hcls] at hpecls
          exact absurd hpecls (by decide)
        have heq := applyAttaches_lookup_notin sid now _ q.1 hnotin
          (storeCompat s)
        rw [hm0, hlookF] at heq
        have hq2 : q.2 = m0 := Option.some.inj heq
        rw [hpq, hq2, hcls]
        exact ⟨by decide, by decide⟩
      | ineligible =>
        have hnotin : q.1 ∉ ((storeCompat s).filter
            (fun r => classifyAttach r.2 = AttachClass.toAttach)).map
              Prod.fst := by
          intro hmemk
          rcases List.mem_map.mp hmemk with ⟨pe, hpe, hpk1⟩
          have hpem : pe ∈ storeCompat s := List.mem_of_mem_filter hpe
          have hle : lookupRec (storeCompat s) pe.1 = some pe.2 :=
            lookupRec_eq_of_mem _ pe hkC hpem
          rw [hpk1, hm0] at hle
          have hpecls : classifyAttach pe.2 = AttachClass.toAttach :=
            of_decide_eq_true (List.mem_filter.mp hpe).2
          rw [show pe.2 = m0 from Option.some.inj hle.symm, hcls] at hpecls
          exact absurd hpecls (by decide)
        have heq := applyAttaches_lookup_notin sid now _ q.1 hnotin
          (storeCompat s)
        rw [hm0, hlookF] at heq
        have hq2 : q.2 = m0 := Option.some.inj heq
        rw [hpq, hq2, hcls]
        exact ⟨by decide, by decide⟩
      | alreadyAttached =>
        have hnotin : q.1 ∉ ((storeCompat s).filter
            (fun r => classifyAttach r.2 = AttachClass.toAttach)).map
              Prod.fst := by
          intro hmemk
          rcases List.mem_map.mp hmemk with ⟨pe, hpe, hpk1⟩
          have hpem : pe ∈ storeCompat s := List.mem_of_mem_filter hpe
          have hle : lookupRec (storeCompat s) pe.1 = some pe.2 :=
            lookupRec_eq_of_mem _ pe hkC hpem
          rw [hpk1, hm0] at hle
          have hpecls : classifyAttach pe.2 = AttachClass.toAttach :=
            of_decide_eq_true (List.mem_filter.mp hpe).2
          rw [show pe.2 = m0 from Option.some.inj hle.symm, hcls] at hpecls
          exact absurd hpecls (by decide)
        have heq := applyAttaches_lookup_notin sid now _ q.1 hnotin
          (storeCompat s)
        rw [hm0, hlookF] at heq
        have hq2 : q.2 = m0 := Option.some.inj heq
        rw [hpq, hq2, hcls]
        exact ⟨by decide, by decide⟩

/-! ### Pipeline lemmas -/

theorem fullRun_of_quiet (st : PipelineState) (A : List Article)
    (fidOf : String → String) (now sid : String) (h : QuietState st A) :
    fullRun st A fidOf now sid = (st, ⟨0, 0, 0, 0⟩) := by
  obtain ⟨h1, h2, h3⟩ := h
  obtain ⟨ha, hb, hc⟩ := attachRun_of_quiet st.store sid now h3
  simp only [fullRun, fetchStage_quiet st now A h1,
    uploadBatch_quiet st.store st.files fidOf now h2]
  rw [ha, hb, hc]
  rfl

theorem fullRun_establishes_quiet (st : PipelineState) (A : List Article)
    (fidOf : String → String) (now sid : String)
    (hk : keysNodup st.store) (hfnd : st.files.Nodup)
    (hA : (A.map (fun a => toString a.id)).Nodup)
    (hrec : FilesHaveRecords st) (hstale : StaleHaveFiles st)
    (hfid : ∀ f, truthy (some (fidOf f)) = true) :
    QuietState (fullRun st A fidOf now sid).1 A := by
  obtain ⟨hk1, hfnd1, hrec1, hstale1⟩ :=
    fetchStage_preserves_wf now A st hk hfnd hrec hstale
  have hedit1 := fetchStage_post_edited now A hA st
  have hkU : keysNodup (uploadMarkdownFilesBatch (fetchStage st now A).1.store
      (fetchStage st now A).1.files fidOf now).1 := by
    unfold keysNodup
    rw [uploadStage_keys]
    exact hk1
  have hnostale := uploadStage_no_stale (fetchStage st now A).1.store
    (fetchStage st now A).1.files fidOf now hk1 hfnd1 hrec1 hstale1 hfid
  refine ⟨?_, ?_, ?_⟩
  · intro a ha
    show storedEdited (attachUploadedFilesToVectorStore
      (uploadMarkdownFilesBatch (fetchStage st now A).1.store
        (fetchStage st now A).1.files fidOf now).1 sid now).store
      (toString a.id) = a.edited_at
    rw [attachRun_storedEdited, uploadStage_storedEdited]
    exact hedit1 a ha
  · intro f hf
    show batchUploadDecision (lookupRec (attachUploadedFilesToVectorStore
      (uploadMarkdownFilesBatch (fetchStage st now A).1.store
        (fetchStage st now A).1.files fidOf now).1 sid now).store f) = none
    rw [attachRun_decision]
    exact uploadStage_post_decision (fetchStage st now A).1.store
      (fetchStage st now A).1.files fidOf now hfnd1 hrec1 hfid f hf
  · show AttachQuiet (attachUploadedFilesToVectorStore
      (uploadMarkdownFilesBatch (fetchStage st now A).1.store
        (fetchStage st now A).1.files fidOf now).1 sid now).store
    exact attachRun_post_quiet _ sid now hkU hnostale

/-! ### Helper lemmas for the claim theorems -/

theorem classify_skip (r : Rec) (h : r.skip_vector_store = true) :
    classifyAttach r = AttachClass.skipped := by
  unfold classifyAttach
  rw [if_pos h]

theorem recInv_compat (r : Rec) (h : recInv r) : recInv (compatRec r) := by
  intro hat
  rw [compatRec_upload_status]
  apply h
  unfold compatRec at hat
  cases hv : r.vector_store_attachment_status with
  | none =>
    rw [hv] at hat
    simp [jget] at hat
  | some v =>
    rw [hv] at hat
    exact hat

theorem specUploadDecision_eq (r : Rec) (force : Bool) :
    specUploadDecision r force = uploadDecision r force := by
  unfold specUploadDecision uploadDecision batchUploadDecision
  cases force with
  | true => simp
  | false =>
    simp only [Bool.false_eq_true, if_false, Option.some_bind]
    by_cases h1 : r.openai_upload_status.getD "pending" = "pending"
    · simp [h1]
    · by_cases h2 : r.openai_upload_status.getD "pending" = "failed"
      · simp [h1, h2]
      · by_cases h3 : r.openai_upload_status.getD "pending" = "uploaded"
        · by_cases h4 : truthy r.updated_at = true
          · by_cases h5 : truthy r.last_uploaded_updated_at = true
            · by_cases h6 : r.updated_at = r.last_uploaded_updated_at
              · simp [h1, h2, h3, h4, h5, h6]
              · simp [h1, h2, h3, h4, h5, h6]
            · simp [h1, h2, h3, h4, h5]
          · simp [h1, h2, h3, h4]
        · simp [h1, h2, h3]

theorem applyAttaches_entry_cases (s : Store) (sid now : String)
    (hk : keysNodup s) :
    ∀ q ∈ applyAttaches sid now ((storeCompat s).filter
        (fun p => classifyAttach p.2 = AttachClass.toAttach)) (storeCompat s),
      ∃ m0, (q.1, m0) ∈ storeCompat s ∧
        (q.2 = m0 ∨ (q.2 = setAttachedFields sid now m0 ∧
          classifyAttach m0 = AttachClass.toAttach)) := by
  intro q hqmem
  have hkC : keysNodup (storeCompat s) := keysNodup_storeCompat s hk
  have hndT : (((storeCompat s).filter
      (fun p => classifyAttach p.2 = AttachClass.toAttach)).map
        Prod.fst).Nodup :=
    List.Nodup.sublist (List.Sublist.map Prod.fst (List.filter_sublist _)) hkC
  have hkF : keysNodup (applyAttaches sid now ((storeCompat s).filter
      (fun p => classifyAttach p.2 = AttachClass.toAttach))
      (storeCompat s)) := by
    unfold keysNodup
    rw [applyAttaches_keys]
    exact hkC
  have hlookF : lookupRec (applyAttaches sid now ((storeCompat s).filter
      (fun r => classifyAttach r.2 = AttachClass.toAttach))
      (storeCompat s)) q.1 = some q.2 :=
    lookupRec_eq_of_mem _ q hkF hqmem
  have hmemkeys : q.1 ∈ storeKeys (storeCompat s) := by
    rw [← applyAttaches_keys sid now ((storeCompat s).filter
      (fun r => classifyAttach r.2 = AttachClass.toAttach))
      (storeCompat s), ← isSome_lookupRec_iff, hlookF]
    rfl
  obtain ⟨m0, hm0⟩ := Option.isSome_iff_exists.mp
    ((isSome_lookupRec_iff _ _).mpr hmemkeys)
  have hm0mem : (q.1, m0) ∈ storeCompat s := mem_of_lookupRec_eq _ _ _ hm0
  refine ⟨m0, hm0mem, ?_⟩
  by_cases hcT : classifyAttach m0 = AttachClass.toAttach
  · right
    have hmemT : (q.1, m0) ∈ (storeCompat s).filter
        (fun r => classifyAttach r.2 = AttachClass.toAttach) :=
      List.mem_filter.mpr ⟨hm0mem, by simp [hcT]⟩
    have hlm := applyAttaches_lookup_mem sid now _ hndT (q.1, m0) hmemT
      (storeCompat s)
    rw [hm0] at hlm
    rw [hlookF] at hlm
    exact ⟨Option.some.inj hlm, hcT⟩
  · left
    have hnotin : q.1 ∉ ((storeCompat s).filter
        (fun r => classifyAttach r.2 = AttachClass.toAttach)).map
          Prod.fst := by
      intro hmemk
      rcases List.mem_map.mp hmemk with ⟨pe, hpe, hpk1⟩
      have hpem : pe ∈ storeCompat s := List.mem_of_mem_filter hpe
      have hle : lookupRec (storeCompat s) pe.1 = some pe.2 :=
        lookupRec_eq_of_mem _ pe hkC hpem
      rw [hpk1, hm0] at hle
      have hpecls : classifyAttach pe.2 = AttachClass.toAttach :=
        of_decide_eq_true (List.mem_filter.mp hpe).2
      rw [show pe.2 = m0 from Option.some.inj hle.symm] at hpecls
      exact hcT hpecls
    have heq := applyAttaches_lookup_notin sid now _ q.1 hnotin (storeCompat s)
    rw [hm0, hlookF] at heq
    exact Option.some.inj heq

/-! ### Claim theorems -/

/-- Claim C1 (code bug): for an item that is attached, uploaded with a
recorded file id, and whose `updated_at` differs from
`last_uploaded_updated_at`, one run of
`attach_uploaded_files_to_vector_store` is claimed to detach the old file,
re-upload via `upload_article_by_id` with `force_reupload=True`, attach the
new file id, and leave the record attached with a fresh file id.  The code
cannot do this: `self.upload_article_by_id` does not exist on
`OpenAIUploader` (the method is defined on `Scraper` only; see
`openAIUploaderMethods`), so after the best-effort detach the supersede
step raises `AttributeError`, the per-item handler counts the item as
update-failed, and the saved record still carries the OLD file id, the
stale watermark, and status `attached`.  This theorem evaluates the
embedding at such an item: one detach call is made for the old file id, no
attach call is made, the item is counted in `files_update_failed_count`,
and the persisted record is unchanged. -/
theorem c1_supersede_always_fails :
    attachUploadedFilesToVectorStore [("7", c1rec)] "vs1" "t1" =
      { store := [("7", c1rec)]
        detachCalls := [("7", "file-old")]
        attachCalls := []
        filesUpdated := 0
        filesUpdateFailed := 1
        addedCount := 0
        alreadyAttachedCount := 0
        saved := true } := by
  decide

/-- Claim C2 counterexample: `save_article_as_markdown`, applied to an id
that already has a record (here with upload status `uploaded`, a recorded
file id, a recorded watermark, `skip_vector_store` set, and attachment
status `attached`) and an article whose `edited_at` changed, does NOT
preserve the upload/attach state fields: the rewritten record has
`openai_upload_status = "pending"`, no `openai_file_id` key, no
`last_uploaded_updated_at` key, `skip_vector_store = False`, and attachment
status reset to `pending` — the dict literal at src/main.py lines 229-243
replaces the record wholesale. -/
theorem c2_counterexample :
    (lookupRec (saveArticleAsMarkdown [("7", c2rec)] c2article "t1").1
        "7").map
      (fun r => (r.openai_upload_status, r.openai_file_id,
        r.last_uploaded_updated_at, r.upload_error, r.skip_vector_store,
        jget r.vector_store_attachment_status,
        jget r.vector_store_attached_at)) =
    some (some "pending", none, none, none, false, some "pending", none) :=
  rfl

/-- Claim C2 (amended): whenever `save_article_as_markdown` writes (the
stored `edited_at` differs from the fetched one), the record under the id
becomes exactly the fresh dict literal — so `openai_upload_status` is reset
to `pending`, `skip_vector_store` to `False`, the attachment status and
timestamp to their pending defaults, and `openai_file_id`,
`last_uploaded_updated_at`, `upload_error`, `last_upload_attempt` and
`vector_store_id` are dropped — for existing records just as for new ones;
upload/attach state survives only when the content is unchanged, in which
case the store is not touched at all. -/
theorem c2_wholesale_reset : ∀ (s : Store) (a : Article) (now : String),
    ((saveArticleAsMarkdown s a now).2 = true →
      lookupRec (saveArticleAsMarkdown s a now).1 (toString a.id) =
        some (freshRec a now)) ∧
    ((saveArticleAsMarkdown s a now).2 = false →
      (saveArticleAsMarkdown s a now).1 = s) := by
  intro s a now
  by_cases hw : storedEdited s (toString a.id) = a.edited_at
  · rw [saveArticle_quiet s a now hw]
    exact ⟨fun h => absurd h Bool.false_ne_true, fun _ => rfl⟩
  · rw [saveArticle_write s a now hw]
    exact ⟨fun _ => lookupRec_insertRec_self s (toString a.id) (freshRec a now),
      fun h => Bool.noConfusion h⟩

/-- Claim C2 witness: the amended theorem applied to the concrete changed
article of the counterexample. -/
theorem c2_wholesale_reset_witness :
    lookupRec (saveArticleAsMarkdown [("7", c2rec)] c2article "t1").1 "7" =
      some (freshRec c2article "t1") :=
  (c2_wholesale_reset [("7", c2rec)] c2article "t1").1 (by decide)

/-- Claim C3 counterexample: `Scraper.update_upload_status` records a
successful upload (status `uploaded` with a new file id) WITHOUT touching
`last_uploaded_updated_at`: starting from a record with
`updated_at = "2024-02-01"` and `last_uploaded_updated_at = "2024-01-01"`,
after the success the watermark is still `"2024-01-01"`, different from the
updated_at at the time of the call — refuting the claim that every
success path stamps the watermark. -/
theorem c3_counterexample :
    (lookupRec (scraperUpdateUploadStatus [("7", c3rec)] "7" "uploaded"
        (some "file-2") none "t1") "7").map
      (fun r => (r.openai_upload_status, r.openai_file_id,
        r.last_uploaded_updated_at, r.updated_at)) =
    some (some "uploaded", some "file-2", some "2024-01-01",
      some "2024-02-01") := by
  decide

/-- Claim C3 (amended): only the `OpenAIUploader.update_upload_status` path
maintains the watermark, and only partially: on a call that records a file
id (a success), it sets `last_uploaded_updated_at` to the current
`updated_at` exactly when that `updated_at` is truthy, and leaves the
previous watermark in place otherwise; when no file id is recorded (a
failure) the watermark is untouched.  The `Scraper.update_upload_status`
path (the one `upload_article_by_id` uses) never writes
`last_uploaded_updated_at` at all, on success or failure. -/
theorem c3_watermark_paths : ∀ (s : Store) (aid status : String)
    (fid err : Option String) (now : String),
    lastOf (lookupRec (uploaderUpdateUploadStatus s aid status fid err now)
        aid) =
      (if truthy fid && truthy (updOf (lookupRec s aid)) then
        updOf (lookupRec s aid)
      else lastOf (lookupRec s aid)) ∧
    lastOf (lookupRec (scraperUpdateUploadStatus s aid status fid err now)
        aid) =
      lastOf (lookupRec s aid) := by
  intro s aid status fid err now
  constructor
  · rw [uploaderUpdate_lookup_self]
    cases hl : lookupRec s aid with
    | none => simp [lastOf, updOf, truthy]
    | some r =>
      simp only [Option.map_some', lastOf, updOf, Option.some_bind]
      rw [uploaderTransform_last]
      rw [compatRec_last_uploaded, compatRec_updated_at]
  · rw [scraperUpdate_lookup_self]
    cases hl : lookupRec s aid with
    | none => rfl
    | some r =>
      simp only [Option.map_some', lastOf, Option.some_bind]
      rw [scraperTransform_last]

/-- Claim C4 counterexample: a record with `skip_vector_store = True` is not
selected by `get_articles_for_upload` even with `force_reupload = True` and
an existing markdown file — the `skip_vector_store` filter at
src/main.py line 472 runs before the decision table, so the clause
`force_reupload implies selected` of the claim is false as stated. -/
theorem c4_counterexample :
    getArticlesForUpload [("1", c4rec)] (fun _ => true) true = [] := by
  decide

/-- Claim C4 (amended): upload-stage selection in `get_articles_for_upload`
follows the decision table of the claim — `force_reupload` first, then
status `pending` (reason `never_uploaded`), status `failed`
(`previous_upload_failed`), status `uploaded` with a truthy `updated_at`
unequal to `last_uploaded_updated_at` (`content_updated`), status
`uploaded` with a truthy `updated_at` but no recorded watermark
(`metadata_migration`), otherwise not selected — but only for records with
`skip_vector_store` false whose markdown file exists; a record with
`skip_vector_store` true, or without a markdown file on disk, is never
selected, regardless of `force_reupload`.  The reason string returned is
the one of the clause that fired in every case. -/
theorem c4_selection_table : ∀ (s : Store) (fileExists : String → Bool)
    (force : Bool),
    getArticlesForUpload s fileExists force =
      s.filterMap (fun p =>
        if !p.2.skip_vector_store && fileExists p.1 then
          (specUploadDecision p.2 force).map (fun reason => (p.1, reason))
        else none) := by
  intro s fileExists force
  unfold getArticlesForUpload
  congr 1
  funext p
  by_cases hs : p.2.skip_vector_store
  · simp [hs]
  · rw [if_neg hs]
    rw [show specUploadDecision p.2 force = uploadDecision p.2 force from
      specUploadDecision_eq p.2 force]
    cases hd : uploadDecision p.2 force with
    | none => simp [hd, hs]
    | some reason =>
      by_cases hf : fileExists p.1 = true
      · simp [hd, hs, hf]
      · simp [hd, hs, hf]

/-- Claim C5 counterexample: a first-seen article (no record in the store)
whose remote `edited_at` is null is NOT written:
`all_metadata.get(id, {}).get("edited_at")` is `None` and equals the
fetched `None`, so `save_article_as_markdown` takes the up-to-date early
return — refuting the clause that every first-seen article is written,
including one whose `edited_at` is null. -/
theorem c5_counterexample :
    saveArticleAsMarkdown [] c5articleNull "t1" = ([], false) := by
  decide

/-- Claim C5 (amended): `save_article_as_markdown` writes the artifact and
mutates the record exactly when the stored `edited_at` (`None` when the
record or the key is absent) differs from the fetched `edited_at`; so a
first-seen article with a non-null `edited_at` is written, but a first-seen
article whose `edited_at` is null compares equal to the absent value and is
skipped.  When the two values are equal nothing is written and the store is
returned untouched. -/
theorem c5_write_iff_changed : ∀ (s : Store) (a : Article) (now : String),
    ((saveArticleAsMarkdown s a now).2 = true ↔
      ¬ storedEdited s (toString a.id) = a.edited_at) ∧
    (storedEdited s (toString a.id) = a.edited_at →
      saveArticleAsMarkdown s a now = (s, false)) := by
  intro s a now
  by_cases hw : storedEdited s (toString a.id) = a.edited_at
  · rw [saveArticle_quiet s a now hw]
    exact ⟨⟨fun h => absurd h Bool.false_ne_true, fun h => absurd hw h⟩,
      fun _ => rfl⟩
  · rw [saveArticle_write s a now hw]
    exact ⟨⟨fun _ => hw, fun _ => rfl⟩, fun h => absurd h hw⟩

/-- Claim C5 witness: a first-seen article with a non-null `edited_at` is
written. -/
theorem c5_write_iff_changed_witness :
    (saveArticleAsMarkdown [] c5articleNew "t1").2 = true :=
  (c5_write_iff_changed [] c5articleNew "t1").1.mpr (by decide)

/-- Claim C6 counterexample: the pipeline is not idempotent for every
store: a stray markdown file `7.md` with no metadata record is selected by
`upload_markdown_files_batch` (an absent record reads as status `pending`)
and uploaded on EVERY run — `update_upload_status` then ignores the unknown
id, so the second run performs one upload-service call again instead of
zero. -/
theorem c6_counterexample :
    (fullRun (fullRun ⟨[], ["7"]⟩ [] (fun _ => "x") "t1" "vs").1 []
      (fun _ => "x") "t2" "vs").2.uploadCalls = 1 := by
  decide

/-- Claim C6 (amended): the pipeline is idempotent on well-formed states:
if the store keys and the artifact list are duplicate-free, the remote
article ids are distinct, every artifact file on disk has a metadata
record, every record with a stale upload watermark has its artifact on
disk, and the upload service returns non-empty file ids, then after one
full run (fetch, upload, attach — all service calls succeeding) a second
run with the same remote articles performs zero artifact writes, zero
upload calls, zero attach calls and zero detach calls. -/
theorem c6_second_run_quiet : ∀ (st : PipelineState) (A : List Article)
    (fidOf : String → String) (sid now1 now2 : String),
    keysNodup st.store → st.files.Nodup →
    (A.map (fun a => toString a.id)).Nodup →
    FilesHaveRecords st → StaleHaveFiles st →
    (∀ f, truthy (some (fidOf f)) = true) →
    (fullRun (fullRun st A fidOf now1 sid).1 A fidOf now2 sid).2 =
      ⟨0, 0, 0, 0⟩ := by
  intro st A fidOf sid now1 now2 hk hfnd hA hrec hstale hfid
  rw [fullRun_of_quiet (fullRun st A fidOf now1 sid).1 A fidOf now2 sid
    (fullRun_establishes_quiet st A fidOf now1 sid hk hfnd hA hrec hstale
      hfid)]

/-- Claim C6 witness: a one-article store with its artifact on disk,
re-running the pipeline on unchanged remote data. -/
theorem c6_second_run_quiet_witness :
    (fullRun (fullRun c6state [c6article] (fun _ => "x") "t1" "vs").1
      [c6article] (fun _ => "x") "t2" "vs").2 = ⟨0, 0, 0, 0⟩ :=
  c6_second_run_quiet c6state [c6article] (fun _ => "x") "vs" "t1" "t2"
    (by decide) (by decide) (by decide) (by decide) (by decide)
    (fun f => show truthy (some "x") = true by decide)

/-- Claim C7 counterexample: the invariant `attached only if uploaded` does
not hold in every reachable store state.  Starting from a store satisfying
the invariant (one record uploaded and attached),
`OpenAIUploader.update_upload_status` recording a FAILED re-upload sets
`openai_upload_status = "failed"` but leaves
`vector_store_attachment_status = "attached"`, producing an
attached-but-not-uploaded record. -/
theorem c7_counterexample :
    (lookupRec (uploaderUpdateUploadStatus [("7", c7rec)] "7" "failed" none
        (some "boom") "t1") "7").map
      (fun r => (jget r.vector_store_attachment_status,
        r.openai_upload_status.getD "pending")) =
    some (some "attached", "failed") := rfl

/-- Claim C7 (amended): the invariant `attached only if uploaded` is
established and preserved by the fetch write (the fresh record is pending),
by the compatibility backfill, and by
`attach_uploaded_files_to_vector_store` (which only marks attached those
records whose `openai_upload_status` is `uploaded` and never changes that
status) — but it is NOT an invariant of all the listed operations:
`update_upload_status` recording a failure for an attached record breaks
it, as the counterexample shows, and `attach_files_to_vector_store`
performs no upload-status check at all. -/
theorem c7_invariant_preservation : ∀ (s : Store) (a : Article)
    (sid now : String),
    keysNodup s → storeInv s →
    storeInv (saveArticleAsMarkdown s a now).1 ∧
    storeInv (storeCompat s) ∧
    storeInv (attachUploadedFilesToVectorStore s sid now).store := by
  intro s a sid now hk hinv
  refine ⟨?_, ?_, ?_⟩
  · by_cases hw : storedEdited s (toString a.id) = a.edited_at
    · rw [saveArticle_quiet s a now hw]
      exact hinv
    · rw [saveArticle_write s a now hw]
      intro p hp
      rcases mem_insertRec _ _ _ _ hp with hm | hm
      · exact hinv p hm
      · rw [hm]
        intro hat
        have hfr : jget (freshRec a now).vector_store_attachment_status =
            some "pending" := rfl
        rw [hfr] at hat
        exact absurd hat (by decide)
  · intro p hp
    obtain ⟨q, hq, _, hv⟩ := mem_storeCompat s p hp
    rw [hv]
    exact recInv_compat q.2 (hinv q hq)
  · by_cases he : (storeCompat s).isEmpty = true
    · have hstore : (attachUploadedFilesToVectorStore s sid now).store = s := by
        rw [attachRun_fields_empty s sid now he]
      rw [hstore]
      exact hinv
    · by_cases hcond : (((storeCompat s).filter
          (fun p => classifyAttach p.2 = AttachClass.toAttach)).isEmpty &&
          ((storeCompat s).filter
          (fun p => classifyAttach p.2 = AttachClass.needsUpdate)).isEmpty)
          = true
      · have hstore : (attachUploadedFilesToVectorStore s sid now).store =
            s := by
          rw [attachRun_fields_early s sid now he hcond]
        rw [hstore]
        exact hinv
      · have hstore : (attachUploadedFilesToVectorStore s sid now).store =
            applyAttaches sid now ((storeCompat s).filter
              (fun p => classifyAttach p.2 = AttachClass.toAttach))
              (storeCompat s) := by
          rw [attachRun_fields_saved s sid now he hcond]
        rw [hstore]
        intro q hq
        obtain ⟨m0, hm0mem, hcase⟩ :=
          applyAttaches_entry_cases s sid now hk q hq
        have hminv : recInv m0 := by
          obtain ⟨q0, hq0, _, hv0⟩ := mem_storeCompat s (q.1, m0) hm0mem
          rw [show m0 = compatRec q0.2 from hv0]
          exact recInv_compat q0.2 (hinv q0 hq0)
        rcases hcase with hv | ⟨hv, hcT⟩
        · rw [hv]
          exact hminv
        · rw [hv]
          intro _
          obtain ⟨helig, _⟩ := classify_eq_toAttach m0 hcT
          unfold attachEligible at helig
          rw [Bool.and_eq_true] at helig
          have hst0 : m0.openai_upload_status = some "uploaded" :=
            of_decide_eq_true helig.1
          rw [setAttachedFields_upload_status, hst0]
          rfl

/-- Claim C7 witness: the amended theorem applied to a concrete
invariant-satisfying store. -/
theorem c7_invariant_preservation_witness :
    storeInv (saveArticleAsMarkdown [("7", c7rec)]
      { id := 7, title := "Doc", section_id := 1
        edited_at := some "2024-03-01" } "t1").1 ∧
    storeInv (storeCompat [("7", c7rec)]) ∧
    storeInv (attachUploadedFilesToVectorStore [("7", c7rec)]
      "vs1" "t1").store :=
  c7_invariant_preservation [("7", c7rec)]
    { id := 7, title := "Doc", section_id := 1
      edited_at := some "2024-03-01" } "vs1" "t1" (by decide) (by decide)

/-- Claim C8 (code bug): both load routines treat a missing or unparseable
store file as an empty store without raising, and
`OpenAIUploader.load_articles_metadata` backfills the three newer
attachment fields with their safe defaults when the keys are absent — but
the backfill does NOT hold on the Scraper load path: `class Scraper`
defines `load_articles_metadata` twice (lines 129 and 407) and Python binds
the later definition, which returns the parsed store with the legacy record
unchanged, its attachment keys still absent.  The last conjunct evaluates
that failing path. -/
theorem c8_load_and_backfill :
    scraperLoadDisk DiskFile.missing = [] ∧
    scraperLoadDisk DiskFile.corrupt = [] ∧
    uploaderLoadDisk DiskFile.missing = [] ∧
    uploaderLoadDisk DiskFile.corrupt = [] ∧
    uploaderLoadDisk (DiskFile.ok [("7", c8rec)]) =
      [("7", { c8rec with
        vector_store_attachment_status := some (some "pending")
        vector_store_attached_at := some none
        vector_store_id := some none })] ∧
    scraperLoadDisk (DiskFile.ok [("7", c8rec)]) = [("7", c8rec)] := by
  refine ⟨rfl, rfl, rfl, rfl, ?_, rfl⟩
  decide

/-- Claim C9: a record with `skip_vector_store = True` is never selected by
`attach_uploaded_files_to_vector_store`: no attach call and no detach call
is made for its id, and its record in the persisted store is unchanged
except possibly for the compatibility backfill of absent attachment keys
that the loader applies to every record on every load. -/
theorem c9_skip_never_selected : ∀ (s : Store) (sid now aid : String)
    (r : Rec),
    keysNodup s → lookupRec s aid = some r → r.skip_vector_store = true →
    aid ∉ (attachUploadedFilesToVectorStore s sid now).attachCalls.map
      Prod.fst ∧
    aid ∉ (attachUploadedFilesToVectorStore s sid now).detachCalls.map
      Prod.fst ∧
    (lookupRec (attachUploadedFilesToVectorStore s sid now).store aid =
        some r ∨
      lookupRec (attachUploadedFilesToVectorStore s sid now).store aid =
        some (compatRec r)) := by
  intro s sid now aid r hk hlook hskip
  have hkC : keysNodup (storeCompat s) := keysNodup_storeCompat s hk
  have hlookC : lookupRec (storeCompat s) aid = some (compatRec r) := by
    rw [lookupRec_storeCompat, hlook]
    rfl
  have hclsC : classifyAttach (compatRec r) = AttachClass.skipped :=
    classify_skip _ (by rw [compatRec_skip]; exact hskip)
  have hval : ∀ pe ∈ storeCompat s, pe.1 = aid → pe.2 = compatRec r := by
    intro pe hpe hpk
    have h1 := lookupRec_eq_of_mem _ pe hkC hpe
    rw [hpk] at h1
    rw [hlookC] at h1
    exact (Option.some.inj h1).symm
  by_cases he : (storeCompat s).isEmpty = true
  · have h0 := attachRun_fields_empty s sid now he
    have e1 : (attachUploadedFilesToVectorStore s sid now).attachCalls =
        [] := by rw [h0]
    have e2 : (attachUploadedFilesToVectorStore s sid now).detachCalls =
        [] := by rw [h0]
    have e3 : (attachUploadedFilesToVectorStore s sid now).store = s := by
      rw [h0]
    rw [e1, e2, e3]
    exact ⟨by simp, by simp, Or.inl hlook⟩
  · by_cases hcond : (((storeCompat s).filter
        (fun p => classifyAttach p.2 = AttachClass.toAttach)).isEmpty &&
        ((storeCompat s).filter
        (fun p => classifyAttach p.2 = AttachClass.needsUpdate)).isEmpty)
        = true
    · have h0 := attachRun_fields_early s sid now he hcond
      have e1 : (attachUploadedFilesToVectorStore s sid now).attachCalls =
          [] := by rw [h0]
      have e2 : (attachUploadedFilesToVectorStore s sid now).detachCalls =
          [] := by rw [h0]
      have e3 : (attachUploadedFilesToVectorStore s sid now).store = s := by
        rw [h0]
      rw [e1, e2, e3]
      exact ⟨by simp, by simp, Or.inl hlook⟩
    · have h0 := attachRun_fields_saved s sid now he hcond
      have e1 : (attachUploadedFilesToVectorStore s sid now).attachCalls =
          ((storeCompat s).filter
            (fun p => classifyAttach p.2 = AttachClass.toAttach)).map
            (fun p => (p.1, p.2.openai_file_id.getD "")) := by rw [h0]
      have e2 : (attachUploadedFilesToVectorStore s sid now).detachCalls =
          ((storeCompat s).filter
            (fun p => classifyAttach p.2 = AttachClass.needsUpdate)).filterMap
            (fun p =>
              if jget p.2.vector_store_attachment_status = some "attached"
              then some (p.1, p.2.openai_file_id.getD "")
              else none) := by rw [h0]
      have e3 : (attachUploadedFilesToVectorStore s sid now).store =
          applyAttaches sid now ((storeCompat s).filter
            (fun p => classifyAttach p.2 = AttachClass.toAttach))
            (storeCompat s) := by rw [h0]
      have hnotinT : aid ∉ ((storeCompat s).filter
          (fun p => classifyAttach p.2 = AttachClass.toAttach)).map
            Prod.fst := by
        intro hm
        rcases List.mem_map.mp hm with ⟨pe, hpe, hpk⟩
        have hpred : classifyAttach pe.2 = AttachClass.toAttach :=
          of_decide_eq_true (List.mem_filter.mp hpe).2
        rw [hval pe (List.mem_of_mem_filter hpe) hpk, hclsC] at hpred
        exact absurd hpred (by decide)
      refine ⟨?_, ?_, ?_⟩
      · rw [e1]
        intro hm
        rcases List.mem_map.mp hm with ⟨d, hd, hdk⟩
        rcases List.mem_map.mp hd with ⟨pe, hpe, hde⟩
        apply hnotinT
        have : pe.1 = aid := by rw [← hdk, ← hde]
        exact this ▸ List.mem_map_of_mem Prod.fst hpe
      · rw [e2]
        intro hm
        rcases List.mem_map.mp hm with ⟨d, hd, hdk⟩
        rcases List.mem_filterMap.mp hd with ⟨pe, hpe, hg⟩
        have hpk : pe.1 = aid := by
          by_cases hj : jget pe.2.vector_store_attachment_status =
              some "attached"
          · rw [if_pos hj] at hg
            rw [← hdk, ← Option.some.inj hg]
          · rw [if_neg hj] at hg
            exact Option.noConfusion hg
        have hpred : classifyAttach pe.2 = AttachClass.needsUpdate :=
          of_decide_eq_true (List.mem_filter.mp hpe).2
        rw [hval pe (List.mem_of_mem_filter hpe) hpk, hclsC] at hpred
        exact absurd hpred (by decide)
      · rw [e3]
        right
        rw [applyAttaches_lookup_notin sid now _ aid hnotinT, hlookC]

/-- Claim C9 witness: a concrete skipped record that is uploaded, stale and
previously attached is still not selected. -/
theorem c9_skip_never_selected_witness :
    "9" ∉ (attachUploadedFilesToVectorStore [("9", c9rec)]
      "vs1" "t1").attachCalls.map Prod.fst ∧
    "9" ∉ (attachUploadedFilesToVectorStore [("9", c9rec)]
      "vs1" "t1").detachCalls.map Prod.fst ∧
    (lookupRec (attachUploadedFilesToVectorStore [("9", c9rec)]
        "vs1" "t1").store "9" = some c9rec ∨
      lookupRec (attachUploadedFilesToVectorStore [("9", c9rec)]
        "vs1" "t1").store "9" = some (compatRec c9rec)) :=
  c9_skip_never_selected [("9", c9rec)] "vs1" "t1" "9" c9rec
    (by decide) (by decide) (by decide)

/-- Claim C10: when the string form of the article id is not a key of the
stored metadata, both `Scraper.update_upload_status` and
`OpenAIUploader.update_upload_status` leave the persisted store exactly as
it was — no record is created or modified and no save is performed — for
every combination of status, file id and error arguments. -/
theorem c10_missing_id_noop : ∀ (s : Store) (aid status : String)
    (fid err : Option String) (now : String),
    lookupRec s aid = none →
    scraperUpdateUploadStatus s aid status fid err now = s ∧
    uploaderUpdateUploadStatus s aid status fid err now = s := by
  intro s aid status fid err now h
  constructor
  · unfold scraperUpdateUploadStatus
    rw [h]
    rfl
  · simp only [uploaderUpdateUploadStatus]
    rw [lookupRec_storeCompat, h]
    rfl

/-- Claim C10 witness: updating an id that is not in the store is a no-op,
for a success-shaped argument combination. -/
theorem c10_missing_id_noop_witness :
    scraperUpdateUploadStatus [("1", c10rec)] "2" "uploaded" (some "file-9")
      none "t1" = [("1", c10rec)] ∧
    uploaderUpdateUploadStatus [("1", c10rec)] "2" "uploaded" (some "file-9")
      none "t1" = [("1", c10rec)] :=
  c10_missing_id_noop [("1", c10rec)] "2" "uploaded" (some "file-9") none
    "t1" (by decide)
